import Mathlib

/-!
# Icecream daemon: environment provisioning (`daemon/environment.cpp`)

A shallow embedding of the functions of `daemon/environment.cpp` and the
properties of its specification.

Conventions of the embedding

* `std::string` is a Lean `String`; a code point above 127 stands for its UTF-8
  bytes, all of which are `>= 0x80` and fail `isascii`.
* The operating system is an explicit argument: a state (`World`) for the calls
  whose effect is observed, and an oracle record for the results the kernel
  decides (failures, pids, message contents).  Every call that is executed is
  appended to a trace, so that "before", "after" and "never executed" are statements
  about that trace.
* A function that can leave through `_exit`, `abort` or `execv` returns an
  `Outcome` saying how it left.
* `size_t` is 64 bits wide (LP64); additions on it wrap modulo `2^64`.
-/

namespace Icecream

/-! ## C library character classes, "C" locale -/

/-- C `isascii(3)`: the value fits in seven bits. -/
def isascii (c : Char) : Bool := c.toNat < 128

/-- C `isspace(3)`: space, `\t`, `\n`, `\v`, `\f`, `\r`. -/
def isspace (c : Char) : Bool := c.toNat == 32 || (9 ≤ c.toNat && c.toNat ≤ 13)

/-- C `isprint(3)`: `0x20 .. 0x7e`. -/
def isprint (c : Char) : Bool := 32 ≤ c.toNat && c.toNat ≤ 126

/-! ## Messages of the channel (`comm.h`, consumed only) -/

/-- Modelled from the spec: the message types of `comm.h`, which is not part of the
sources at hand.  A "file chunk" message carries a byte buffer (`unsigned char *buffer`
with `len = buffer.length`, each byte a number below 256); every other message only
has its type tag. -/
inductive Msg where
  | file_chunk (buffer : List Nat)
  | other (type : Nat)
deriving DecidableEq, Repr

/-! ## Operating-system state, events and outcomes -/

/-- One executed call, in the order of execution. -/
inductive Event where
  | get_msg (timeout : Nat)
  | mkdir (path : String) (mode : Nat)
  | chown (path : String) (uid gid : Nat)
  | chmod (path : String) (mode : Nat)
  | rmdir (path : String)
  | stat (path : String)
  | read (fd : Nat) (count : Nat)
  | pipe
  | fork
  | setgroups
  | setgid (gid : Nat)
  | setuid (uid : Nat)
  | signal_dfl (sig : String)
  | close (fd : Nat)
  | dup2 (oldfd newfd : Nat)
  | nice (inc : Int)
  | execv (argv : List String)
  | unshare
  | chdir (path : String)
  | chroot (path : String)
  | send_msg (text : String)
  | access (path : String)
  | waitpid (pid : Int)
  | reset_debug
deriving DecidableEq, Repr

/-- What `stat` reports of a path, as far as the code looks at it. -/
structure Inode where
  is_dir : Bool
  uid : Nat
  gid : Nat
  mode : Nat
  size : Nat
deriving DecidableEq, Repr

/-! ### Path names

The kernel resolves a path component by component.  The model does so lexically: empty
components and `.` are dropped and `..` steps back to the parent (the parent of the root
is the root), so that all spellings of a name denote the same file.  The working
directory is the root, and there are no symbolic links among the directories named.
That a directory on the way is missing is one of the failures the oracle of a call
decides. -/

/-- The components of a path: the pieces between the separators. -/
def split_on {α : Type} [DecidableEq α] (sep : α) : List α → List (List α)
  | [] => [[]]
  | c :: cs =>
    if c = sep then [] :: split_on sep cs
    else
      match split_on sep cs with
      | [] => [[c]]
      | h :: t => (c :: h) :: t

/-- One step of the resolution: the directories entered so far, innermost first, and the
next component. -/
def path_step {α : Type} [DecidableEq α] (dot : α) (stack : List (List α)) (comp : List α) :
    List (List α) :=
  if comp = [] ∨ comp = [dot] then stack
  else if comp = [dot, dot] then stack.tail
  else comp :: stack

/-- The resolved location of a path: its components from the innermost to the root. -/
def resolve_path {α : Type} [DecidableEq α] (sep dot : α) (path : List α) : List (List α) :=
  (split_on sep path).foldl (path_step dot) []

/-- The spelling of a location: every component preceded by a separator; the root is the
empty path. -/
def render_path {α : Type} (sep : α) : List (List α) → List α
  | [] => []
  | comp :: stack => render_path sep stack ++ sep :: comp

/-- The canonical spelling of the file a path names. -/
def canonical (path : String) : String :=
  String.mk (render_path '/' (resolve_path '/' '.' path.data))

/-- State of the machine: the filesystem as a map from the canonical spelling of a path to
the inode it names, and the calls executed so far. -/
structure World where
  fs : String → Option Inode
  trace : List Event

/-- Append an executed call to the trace. -/
def World.log (w : World) (e : Event) : World := { w with trace := w.trace ++ [e] }

/-- Replace the inode at the canonical path `key`. -/
def World.put (w : World) (key : String) (i : Inode) : World :=
  { w with fs := fun p => if p = key then some i else w.fs p }

/-- How a function of the daemon is left. -/
inductive Outcome (α : Type) where
  | ret (value : α)
  | exec (argv : List String)
  | exit (code : Nat)
  | abort
deriving DecidableEq, Repr

/-- Result of a call that reports failure through `errno`. -/
inductive SysResult where
  | ok
  | eexist
  | err
deriving DecidableEq, Repr

/-! ## `start_install_environment` -/

/-- What the kernel and the peer decide during `start_install_environment`. -/
structure InstallOracle where
  /-- the message `c->get_msg(30)` delivers, if any -/
  msg : Option Msg
  /-- `mkdir` of the path fails with an error other than EEXIST (ENOENT, ENOTDIR,
  EACCES, ENOSPC, ...) -/
  mkdir_err : String → Bool
  /-- `chown` of an existing path fails -/
  chown_err : String → Bool
  /-- `chmod` of an existing path fails -/
  chmod_err : String → Bool
  /-- the descriptors of `pipe`, `none` when it fails -/
  pipe_fds : Option (Nat × Nat)
  /-- value of `fork()`: `-1`, `0` in the child, the child's pid in the parent -/
  fork_pid : Int
  /-- effective ids of the daemon -/
  euid : Nat
  egid : Nat
  umask : Nat
  setgroups_ret : Int
  setgid_ret : Int
  setuid_ret : Int
  /-- `execv` comes back, which it only does on failure -/
  execv_fails : Bool

/-- Call `mkdir(path, mode)`: fails with `EEXIST` when the path names anything, and
with another error when the oracle says so. -/
def sys_mkdir (o : InstallOracle) (w : World) (path : String) (mode : Nat) : SysResult × World :=
  let w := w.log (.mkdir path mode)
  if o.mkdir_err path then (.err, w)
  else
    match w.fs (canonical path) with
    | some _ => (.eexist, w)
    | none =>
      (.ok, w.put (canonical path)
        ⟨true, o.euid, o.egid, mode &&& (0o7777 ^^^ (o.umask &&& 0o7777)), 4096⟩)

/-- Call `chown(path, uid, gid)`. -/
def sys_chown (o : InstallOracle) (w : World) (path : String) (uid gid : Nat) : SysResult × World :=
  let w := w.log (.chown path uid gid)
  match w.fs (canonical path) with
  | none => (.err, w)
  | some i =>
    if o.chown_err path then (.err, w)
    else (.ok, w.put (canonical path) { i with uid := uid, gid := gid })

/-- Call `chmod(path, mode)`. -/
def sys_chmod (o : InstallOracle) (w : World) (path : String) (mode : Nat) : SysResult × World :=
  let w := w.log (.chmod path mode)
  match w.fs (canonical path) with
  | none => (.err, w)
  | some i =>
    if o.chmod_err path then (.err, w)
    else (.ok, w.put (canonical path) { i with mode := mode })

/-- The test of the `for` loop over `name` (lines 441-448): the character lets the
loop `continue`. -/
def legal_char (c : Char) : Bool :=
  isascii c && !isspace c && c != '/' && isprint c

/-- The `for` loop over `name`: the first character that does not `continue`. -/
def first_illegal : List Char → Option Char
  | [] => none
  | c :: cs => if legal_char c then first_illegal cs else some c

/-- Lines 459-471: the decompressor flag chosen from the first chunk. -/
def sniff_decompressor (buffer : List Nat) : Option String :=
  if buffer.length > 2 then
    if buffer.getD 0 0 = 0o37 ∧ buffer.getD 1 0 = 0o213 then some "-z"
    else if buffer.getD 0 0 = 66 ∧ buffer.getD 1 0 = 90 then some "-j"
    else if buffer.getD 0 0 = 0xfd ∧ buffer.getD 1 0 = 0x37 then some "-J"
    else if buffer.getD 0 0 = 0x28 ∧ buffer.getD 1 0 = 0xb5 then some "-Iunzstd"
    else none
  else none

/-- The values `start_install_environment` hands back: how it was left, the two
reference parameters (`none`: not assigned) and the machine state. -/
structure InstallResult where
  outcome : Outcome Int
  pipe_to_stdin : Option Nat
  fmsg : Option (List Nat)
  world : World

/-- The child of `start_install_environment` after `fork` (lines 520-572).  `TAR` is
the path of the extractor, a macro of `config.h`; `have_libcap_ng` is the build flag
`HAVE_LIBCAP_NG`. -/
def install_child (TAR : String) (have_libcap_ng : Bool) (o : InstallOracle) (w : World)
    (dirname : String) (decompressor : Option String) (fds : Nat × Nat)
    (user_uid user_gid : Nat) (extract_priority : Int) : Outcome Int × World :=
  let run (w : World) : Outcome Int × World :=
    let w := w.log (.signal_dfl "SIGCHLD")
    let w := w.log (.signal_dfl "SIGPIPE")
    let w := w.log (.close 0)
    let w := w.log (.close fds.2)
    let w := w.log (.dup2 fds.1 0)
    let w := w.log (.nice extract_priority)
    let argv := [TAR, "-xC", dirname] ++ decompressor.toList
    let w := w.log (.execv argv)
    if o.execv_fails then (.exit 100, w) else (.exec argv, w)
  if have_libcap_ng then run w
  else
    let w := w.log .setgroups
    if o.setgroups_ret < 0 then (.exit 143, w)
    else
      let w := w.log (.setgid user_gid)
      if o.setgid_ret < 0 then (.exit 143, w)
      else if o.euid = 0 then
        let w := w.log (.setuid user_uid)
        if o.setuid_ret < 0 then (.exit 142, w) else run w
      else run w

/-- Lines 431-573.  A successful `execv` does not return: the outcome `exec argv`
is the extractor replacing the child. -/
def start_install_environment (TAR : String) (have_libcap_ng : Bool) (o : InstallOracle)
    (w : World) (basename target name : String) (user_uid user_gid : Nat)
    (extract_priority : Int) : InstallResult :=
  if name.length = 0 then ⟨.ret 0, none, none, w⟩
  else
    match first_illegal name.data with
    | some _ => ⟨.ret 0, none, none, w⟩
    | none =>
      let dirname := basename ++ "/target=" ++ target
      let w := w.log (.get_msg 30)
      match o.msg with
      | none => ⟨.ret 0, none, none, w⟩
      | some (.other _) => ⟨.ret 0, none, none, w⟩
      | some (.file_chunk buffer) =>
        let fmsg := some buffer
        let decompressor := sniff_decompressor buffer
        match sys_mkdir o w dirname 0o770 with
        | (.err, w) => ⟨.ret 0, none, fmsg, w⟩
        | (_, w) =>
        match sys_chown o w dirname user_uid user_gid with
        | (.err, w) | (.eexist, w) => ⟨.ret 0, none, fmsg, w⟩
        | (.ok, w) =>
        match sys_chmod o w dirname 0o770 with
        | (.err, w) | (.eexist, w) => ⟨.ret 0, none, fmsg, w⟩
        | (.ok, w) =>
        let dirname := dirname ++ "/" ++ name
        match sys_mkdir o w dirname 0o770 with
        | (.err, w) | (.eexist, w) => ⟨.ret 0, none, fmsg, w⟩
        | (.ok, w) =>
        match sys_chown o w dirname user_uid user_gid with
        | (.err, w) | (.eexist, w) => ⟨.ret 0, none, fmsg, w⟩
        | (.ok, w) =>
        match sys_chmod o w dirname 0o770 with
        | (.err, w) | (.eexist, w) => ⟨.ret 0, none, fmsg, w⟩
        | (.ok, w) =>
        let w := w.log .pipe
        match o.pipe_fds with
        | none => ⟨.ret 0, none, fmsg, w⟩
        | some fds =>
          let w := w.log .fork
          if o.fork_pid = -1 then ⟨.ret 0, none, fmsg, w⟩
          else if o.fork_pid ≠ 0 then
            ⟨.ret o.fork_pid, some fds.2, fmsg, w.log (.close fds.1)⟩
          else
            ⟨(install_child TAR have_libcap_ng o w dirname decompressor fds
                user_uid user_gid extract_priority).1, none, fmsg,
              (install_child TAR have_libcap_ng o w dirname decompressor fds
                user_uid user_gid extract_priority).2⟩

/-- The decompression sniff table of the specification (section 6): first two bytes of
the first chunk to extractor flag; `none` is "raw tar, no flag". -/
def magic_table (byte0 byte1 : Nat) : Option String :=
  if byte0 = 0x1F ∧ byte1 = 0x8B then some "-z"
  else if byte0 = 0x42 ∧ byte1 = 0x5A then some "-j"
  else if byte0 = 0xFD ∧ byte1 = 0x37 then some "-J"
  else if byte0 = 0x28 ∧ byte1 = 0xB5 then some "-Iunzstd"
  else none

/-- A machine on which nothing exists and every call succeeds; `fork` answers `pid`. -/
def calm_oracle (msg : Option Msg) (pid : Int) : InstallOracle :=
  ⟨msg, fun _ => false, fun _ => false, fun _ => false, some (3, 4), pid, 0, 0, 0o22, 0, 0, 0, false⟩

/-- An empty filesystem with nothing executed yet. -/
def empty_world : World := ⟨fun _ => none, []⟩

/-- A machine on which environment `abc` of target `x86_64` is installed under `/base`. -/
def installed_world : World :=
  ⟨fun p =>
    if p = "/base" then some ⟨true, 0, 0, 0o775, 4096⟩
    else if p = "/base/target=x86_64" then some ⟨true, 0, 0, 0o755, 4096⟩
    else if p = "/base/target=x86_64/abc" then some ⟨true, 1000, 1000, 0o770, 4096⟩
    else if p = "/base/target=x86_64/abc/usr/bin/as" then some ⟨false, 1000, 1000, 0o755, 100⟩
    else none, []⟩

/-- A machine with the cache directory `/base` and its target directory `target=t`, both
owned by root. -/
def target_world : World :=
  ⟨fun p =>
    if p = "/base" then some ⟨true, 0, 0, 0o755, 4096⟩
    else if p = "/base/target=t" then some ⟨true, 0, 0, 0o755, 4096⟩
    else none, []⟩

/-- Every file of `before` is still there in `after`, of the same kind and size: nothing
was deleted or replaced. -/
def files_kept (before after : String → Option Inode) : Prop :=
  ∀ q j, before q = some j → ∃ k, after q = some k ∧ k.is_dir = j.is_dir ∧ k.size = j.size

/-! ## Directory trees, `sumup_dir` -/

mutual
/-- A file as `lstat` classifies it, with what lies below it. -/
inductive Node where
  /-- regular file: `st_size` and whether `access(.., X_OK)` grants it -/
  | reg (size : Nat) (executable : Bool)
  /-- directory: whether `opendir` succeeds on it, and its entries other than `.` and `..` -/
  | dir (openable : Bool) (entries : Entries)
  /-- symbolic link (not followed by `lstat`) -/
  | symlink
  /-- fifo, socket or device -/
  | special
  /-- a name for which `lstat` fails, such as one removed in the meantime -/
  | vanished
/-- The entries of a directory in `readdir` order. -/
inductive Entries where
  | nil
  | cons (name : String) (node : Node) (rest : Entries)
end

/-- One more than the largest `size_t`. -/
def SIZE_MODULUS : Nat := 2 ^ 64

mutual
/-- Lines 46-80, on the file the path names: `opendir` fails on everything but an
openable directory. -/
def sumup_dir : Node → Nat
  | .dir true entries => sumup_dir_loop entries 0
  | _ => 0
/-- The `readdir` loop of `sumup_dir` with the running value of `res`; `res +=` is an
addition of `size_t`.  The entries `.` and `..` of `readdir` are skipped by the first
test of the loop. -/
def sumup_dir_loop : Entries → Nat → Nat
  | .nil, res => res
  | .cons name node rest, res =>
    if name = "." ∨ name = ".." then sumup_dir_loop rest res
    else
      match node with
      | .vanished => sumup_dir_loop rest res
      | .dir _ _ => sumup_dir_loop rest ((res + sumup_dir node) % SIZE_MODULUS)
      | .reg size _ => sumup_dir_loop rest ((res + size) % SIZE_MODULUS)
      | _ => sumup_dir_loop rest res
end

mutual
/-- The specification's reading of `sum(path)`: the sizes of all regular files reachable
from the path through real directories that can be opened; symbolic links and all other
kinds of entry contribute nothing, `.` and `..` are skipped. -/
def reachable_file_sizes : Node → List Nat
  | .dir true entries => reachable_file_sizes_in entries
  | _ => []
/-- The sizes of the regular files reachable through the given entries. -/
def reachable_file_sizes_in : Entries → List Nat
  | .nil => []
  | .cons name node rest =>
    if name = "." ∨ name = ".." then reachable_file_sizes_in rest
    else
      match node with
      | .reg size _ => size :: reachable_file_sizes_in rest
      | .dir _ _ => reachable_file_sizes node ++ reachable_file_sizes_in rest
      | _ => reachable_file_sizes_in rest
end

/-- A directory holding the given regular files. -/
def dir_of_files : List (String × Nat) → Entries
  | [] => .nil
  | (name, size) :: rest => .cons name (.reg size false) (dir_of_files rest)

/-! ## `list_target_dirs`, `available_environmnents` -/

/-- The entry of that name, as path resolution finds it. -/
def Entries.find : Entries → String → Option Node
  | .nil, _ => none
  | .cons name node rest, wanted => if name = wanted then some node else rest.find wanted

/-- The names of the entries. -/
def Entries.names : Entries → List String
  | .nil => []
  | .cons name _ rest => name :: rest.names

/-- What `readdir` delivers for a directory with these entries: `.`, `..` and the
entries themselves. -/
def readdir (entries : Entries) : List String := "." :: ".." :: entries.names

/-- The file `<node>/<name>` for a name without `/`, other than `.` and `..`. -/
def Node.child (node : Node) (name : String) : Option Node :=
  match node with
  | .dir _ entries => entries.find name
  | _ => none

/-- The file `<self>/<name>` for a name delivered by `readdir` on `self`, whose parent
directory is `parent`. -/
def resolve_entry (parent self : Node) (name : String) : Option Node :=
  if name = "." then some self
  else if name = ".." then some parent
  else self.child name

/-- Whether `access(.., X_OK) == 0` on a file: any directory, and a regular file that is
executable. -/
def access_x_ok : Option Node → Bool
  | some (.reg _ executable) => executable
  | some (.dir _ _) => true
  | _ => false

/-- Whether `access(<node> + "/usr/bin/as", X_OK) == 0`. -/
def has_usr_bin_as (node : Option Node) : Bool :=
  access_x_ok (((node.bind (Node.child · "usr")).bind (Node.child · "bin")).bind (Node.child · "as"))

/-- Lines 82-99.  `base` is the base directory, `targetdir` the file that
`basedir/target=<current_target>` names. -/
def list_target_dirs (current_target : String) (base : Node) (targetdir : Option Node)
    (envs : List (String × String)) : List (String × String) :=
  match targetdir with
  | some (.dir true entries) =>
    (readdir entries).foldl
      (fun envs dirname =>
        if has_usr_bin_as (resolve_entry base (.dir true entries) dirname)
        then envs ++ [(current_target, dirname)] else envs)
      envs
  | _ => envs

/-- Lines 190-216, on the file the base path names.  `readdir` never delivers an empty
name, so `dirname.at(0)` is the first character. -/
def available_environmnents (base : Node) : List (String × String) :=
  match base with
  | .dir true entries =>
    (readdir entries).foldl
      (fun envs dirname =>
        if dirname.data.head? = some '.' then envs
        else if dirname.data.take 7 = "target=".data then
          list_target_dirs (String.mk (dirname.data.drop 7)) base (base.child dirname) envs
        else envs)
      []
  | _ => []

/-- The valid environments of one target directory as the specification defines them:
the immediate children `<child>` (entries other than `.` and `..`) with
`<child>/usr/bin/as` executable. -/
def valid_children (current_target : String) (children : Entries) : List (String × String) :=
  (children.names.filter
      (fun n => n ≠ "." ∧ n ≠ ".." ∧ has_usr_bin_as (children.find n) = true)).map
    (fun n => (current_target, n))

/-- The catalog as the specification defines it: for every top-level entry
`target=<target>` of a readable base directory that is a readable directory, its valid
children. -/
def catalog_of_spec : Node → List (String × String)
  | .dir true entries =>
    (entries.names.filter (fun n => n.data.head? ≠ some '.' ∧ n.data.take 7 = "target=".data)).flatMap
      (fun dirname =>
        match entries.find dirname with
        | some (.dir true children) => valid_children (String.mk (dirname.data.drop 7)) children
        | _ => [])
  | _ => []

/-- The tree of an assembler binary at `usr/bin/as`. -/
def usr_bin_as : Entries :=
  .cons "usr" (.dir true (.cons "bin" (.dir true (.cons "as" (.reg 100 true) .nil)) .nil)) .nil

/-! ## Compiler time stamps -/

/-- Lines 218-239.  `stat_mtime path` is `st_mtime` when `stat(path)` succeeds; the
result is the triple written to the three reference parameters. -/
def save_compiler_timestamps (stat_mtime : String → Option Int) : Int × Int × Int :=
  let gcc_bin_timestamp :=
    match stat_mtime "/usr/bin/gcc" with
    | some mtime => mtime
    | none => 0
  let gpp_bin_timestamp :=
    match stat_mtime "/usr/bin/g++" with
    | some mtime => mtime
    | none => 0
  let clang_bin_timestamp :=
    match stat_mtime "/usr/bin/clang" with
    | some mtime => mtime
    | none => 0
  (gcc_bin_timestamp, gpp_bin_timestamp, clang_bin_timestamp)

/-- Lines 241-276. -/
def compilers_uptodate (stat_mtime : String → Option Int)
    (gcc_bin_timestamp gpp_bin_timestamp clang_bin_timestamp : Int) : Bool :=
  let gcc_stale : Bool :=
    match stat_mtime "/usr/bin/gcc" with
    | some mtime => mtime != gcc_bin_timestamp
    | none => gcc_bin_timestamp != 0
  if gcc_stale then false
  else
    let gpp_stale : Bool :=
      match stat_mtime "/usr/bin/g++" with
      | some mtime => mtime != gpp_bin_timestamp
      | none => gpp_bin_timestamp != 0
    if gpp_stale then false
    else
      let clang_stale : Bool :=
        match stat_mtime "/usr/bin/clang" with
        | some mtime => mtime != clang_bin_timestamp
        | none => clang_bin_timestamp != 0
      if clang_stale then false else true

/-- The current value of a compiler binary in the sense of the specification: its mtime
if it exists, 0 if it is missing. -/
def current_value (stat_mtime : String → Option Int) (path : String) : Int :=
  (stat_mtime path).getD 0

/-! ## `chdir_to_environment` -/

/-- What the kernel answers to the calls of the jail: the real user id and the return
value of each call. -/
structure JailOracle where
  uid : Nat
  chdir_ret : Int
  chroot_ret : Int
  setgroups_ret : Int
  setgid_ret : Int
  setuid_ret : Int
deriving DecidableEq, Repr

/-- Lines 663-669.  `protocol_23` is `IS_PROTOCOL_23(client)`, a macro of `comm.h`. -/
def error_client (protocol_23 : Bool) (trace : List Event) (error : String) : List Event :=
  if protocol_23 then trace ++ [.send_msg error] else trace

/-- Lines 671-752.  `have_unshare` and `have_libcap_ng` are the build flags
`HAVE_UNSHARE` and `HAVE_LIBCAP_NG`.  The result is how the function is left and the
calls it executed, in order. -/
def chdir_to_environment (have_unshare have_libcap_ng protocol_23 : Bool) (o : JailOracle)
    (dirname : String) (user_uid user_gid : Nat) : Outcome Unit × List Event :=
  let t : List Event := if have_unshare then [.unshare] else []
  if have_libcap_ng then
    let t := t ++ [.chdir dirname]
    if o.chdir_ret < 0 then
      (.exit 145, error_client protocol_23 t ("chdir to " ++ dirname ++ "failed"))
    else
      let t := t ++ [.chroot dirname]
      if o.chroot_ret < 0 then
        (.exit 144, error_client protocol_23 t ("chroot " ++ dirname ++ "failed"))
      else (.ret (), t)
  else if o.uid = 0 then
    let t := t ++ [.chdir dirname]
    if o.chdir_ret < 0 then
      (.exit 145, error_client protocol_23 t ("chdir to " ++ dirname ++ "failed"))
    else
      let t := t ++ [.chroot dirname]
      if o.chroot_ret < 0 then
        (.exit 144, error_client protocol_23 t ("chroot " ++ dirname ++ "failed"))
      else
        let t := t ++ [.setgroups]
        if o.setgroups_ret < 0 then
          (.exit 143, error_client protocol_23 t "setgroups failed")
        else
          let t := t ++ [.setgid user_gid]
          if o.setgid_ret < 0 then
            (.exit 143, error_client protocol_23 t "setgid failed")
          else
            let t := t ++ [.setuid user_uid]
            if o.setuid_ret < 0 then
              (.exit 142, error_client protocol_23 t "setuid failed")
            else (.ret (), t)
  else
    (.exit 146, error_client protocol_23 t "cannot chroot to environment")

/-- The steps of the jail. -/
inductive JailStep where
  | chdir
  | chroot
  | setgroups
  | setgid
  | setuid
deriving DecidableEq, Repr

/-- The jail steps in the order the specification gives them. -/
def jail_sequence (dirname : String) (user_uid user_gid : Nat) : List Event :=
  [.chdir dirname, .chroot dirname, .setgroups, .setgid user_gid, .setuid user_uid]

/-- The position of a step in the sequence, counted from one. -/
def JailStep.position : JailStep → Nat
  | .chdir => 1
  | .chroot => 2
  | .setgroups => 3
  | .setgid => 4
  | .setuid => 5

/-- The first step of the sequence whose call fails, if any does. -/
def first_failure (o : JailOracle) : Option JailStep :=
  if o.chdir_ret < 0 then some .chdir
  else if o.chroot_ret < 0 then some .chroot
  else if o.setgroups_ret < 0 then some .setgroups
  else if o.setgid_ret < 0 then some .setgid
  else if o.setuid_ret < 0 then some .setuid
  else none

/-- The jail steps among the executed calls: everything but `unshare` and the status
message to the client. -/
def jail_calls (trace : List Event) : List Event :=
  trace.filter fun e =>
    match e with
    | .unshare => false
    | .send_msg _ => false
    | _ => true

/-- An oracle of a root process in which exactly the given step fails. -/
def failing_at (s : JailStep) : JailOracle :=
  ⟨0, if s = .chdir then -1 else 0, if s = .chroot then -1 else 0,
    if s = .setgroups then -1 else 0, if s = .setgid then -1 else 0,
    if s = .setuid then -1 else 0⟩

/-! ## `verify_env` -/

/-- What the kernel answers during `verify_env`. -/
structure VerifyOracle where
  /-- value of `access(dirname + "/bin/true", X_OK)` -/
  access_ret : Int
  /-- value of `fork()` -/
  fork_pid : Int
  /-- the status `waitpid` stores -/
  wait_status : Int
  /-- the answers to the jail calls of the child -/
  jail : JailOracle
  /-- `execl` comes back, which it only does on failure -/
  execl_fails : Bool

/-- Lines 755-794.  `ndebug` says whether `NDEBUG` is defined, which turns `assert` into
nothing; `shell_exit_status` is a function of `util.h`.  `_exit(-1)` is exit status 255. -/
def verify_env (ndebug have_unshare have_libcap_ng protocol_23 : Bool)
    (shell_exit_status : Int → Int) (o : VerifyOracle)
    (basedir target env : String) (user_uid user_gid : Nat) : Outcome Bool × List Event :=
  if target = "" ∨ env = "" then
    (.ret false, error_client protocol_23 [] "verify_env: target or env empty")
  else
    let dirname := basedir ++ "/target=" ++ target ++ "/" ++ env
    let t : List Event := [.access (dirname ++ "/bin/true")]
    if o.access_ret < 0 then
      (.ret false, error_client protocol_23 t
        (dirname ++ "/bin/true is not executable, installed environment removed?"))
    else
      let t := t ++ [.fork]
      if !ndebug && !(decide (o.fork_pid ≥ 0)) then (.abort, t)
      else if o.fork_pid > 0 then
        (.ret (shell_exit_status o.wait_status == 0), t ++ [.waitpid o.fork_pid])
      else if o.fork_pid < 0 then (.ret false, t)
      else
        let t := t ++ [.reset_debug]
        match chdir_to_environment have_unshare have_libcap_ng protocol_23 o.jail dirname
            user_uid user_gid with
        | (.ret (), tj) =>
          let t := t ++ tj ++ [.execv ["bin/true"]]
          if o.execl_fails then (.exit 255, t) else (.exec ["bin/true"], t)
        | (.exit code, tj) => (.exit code, t ++ tj)
        | (.exec argv, tj) => (.exec argv, t ++ tj)
        | (.abort, tj) => (.abort, t ++ tj)

/-! ## `finish_create_env` -/

/-- The UTF-8 bytes of a code point. -/
def utf8_of_char (c : Char) : List Nat :=
  if c.toNat < 0x80 then [c.toNat]
  else if c.toNat < 0x800 then [0xC0 + c.toNat / 64, 0x80 + c.toNat % 64]
  else if c.toNat < 0x10000 then
    [0xE0 + c.toNat / 4096, 0x80 + c.toNat / 64 % 64, 0x80 + c.toNat % 64]
  else
    [0xF0 + c.toNat / 262144, 0x80 + c.toNat / 4096 % 64, 0x80 + c.toNat / 64 % 64,
      0x80 + c.toNat % 64]

/-- The bytes of a `std::string`. -/
def utf8_bytes (s : String) : List Nat := s.data.flatMap utf8_of_char

/-- The canonical spelling of the file that a path, given by its bytes, names (47 is `/`,
46 is `.`). -/
def canonical_bytes (path : List Nat) : List Nat :=
  render_path 47 (resolve_path 47 46 path)

/-- One executed call of `finish_create_env`; a path is given by its bytes. -/
inductive FinishCall where
  | read (fd : Nat) (count : Nat)
  | close (fd : Nat)
  | stat (path : List Nat)
  | rmdir (path : List Nat)
deriving DecidableEq, Repr

/-- State of the machine for `finish_create_env`: the filesystem as a map from the
canonical spelling of a path, in bytes, to the inode it names, and the calls executed so
far. -/
structure FinishWorld where
  fs : List Nat → Option Inode
  trace : List FinishCall

/-- Append an executed call to the trace. -/
def FinishWorld.log (w : FinishWorld) (e : FinishCall) : FinishWorld :=
  { w with trace := w.trace ++ [e] }

/-- The terminator of a C string. -/
def NUL : Nat := 0

/-- The byte of the newline character. -/
def NEWLINE : Nat := 10

/-- The string that `buf` holds after `strchr(buf, NEWLINE)` has replaced the first
newline by a terminator: the bytes before the first newline or terminator.
`none` when the array has neither, where `strchr` reads past its end. -/
def c_line : List Nat → Option (List Nat)
  | [] => none
  | c :: cs => if c = NUL ∨ c = NEWLINE then some [] else (c_line cs).map (c :: ·)

/-- What the kernel answers during `finish_create_env`, and what the stack holds. -/
structure FinishOracle where
  /-- the bytes the `read` that ends the loop delivers; `none` when it fails -/
  read_ret : Option (List Nat)
  /-- the contents of `buf[1 .. 1023]`, which are not initialised -/
  uninitialised : List Nat
  /-- `rmdir` of an existing path fails -/
  rmdir_fails : Bool

/-- What `finish_create_env` hands back: the size, the bytes of the reference parameter
`native_environment` and the machine state. -/
structure FinishResult where
  ret : Nat
  native_environment : List Nat
  world : FinishWorld

/-- Call `rmdir(path)`. -/
def sys_rmdir (o : FinishOracle) (w : FinishWorld) (path : List Nat) : SysResult × FinishWorld :=
  let w := w.log (.rmdir path)
  match w.fs (canonical_bytes path) with
  | none => (.err, w)
  | some _ =>
    if o.rmdir_fails then (.err, w)
    else (.ok, { w with fs := fun p => if p = canonical_bytes path then none else w.fs p })

/-- Lines 396-428.  `none` stands for the undefined behaviour of a buffer without
newline and terminator. -/
def finish_create_env (o : FinishOracle) (w : FinishWorld) (pipe : Nat) (basedir : String) :
    Option FinishResult :=
  let buf0 : List Nat := NUL :: o.uninitialised.take 1023
  let w := w.log (.read pipe 1023)
  let buf : List Nat :=
    match o.read_ret with
    | some bytes => bytes.take 1023 ++ buf0.drop (bytes.take 1023).length
    | none => buf0
  match c_line buf with
  | none => none
  | some line =>
    let nativedir := basedir ++ "/native/"
    let native_environment := utf8_bytes nativedir ++ line
    let w := w.log (.close pipe)
    if native_environment = [] then
      some ⟨0, native_environment, (sys_rmdir o w (utf8_bytes nativedir)).2⟩
    else
      let w := w.log (.stat native_environment)
      match w.fs (canonical_bytes native_environment) with
      | some st => some ⟨st.size, native_environment, w⟩
      | none => some ⟨0, native_environment, (sys_rmdir o w (utf8_bytes nativedir)).2⟩

/-- A machine after `start_create_env` whose helper has written nothing: the native
directory `/base/native/` exists and is empty. -/
def native_dir_world : FinishWorld :=
  ⟨fun p =>
    if p = canonical_bytes (utf8_bytes "/base/native/") then some ⟨true, 1000, 1000, 0o775, 4096⟩
    else none, []⟩

/-- A machine on which the helper has left the archive `abc.tar.gz` of 5000 bytes. -/
def native_archive_world : FinishWorld :=
  ⟨fun p =>
    if p = canonical_bytes (utf8_bytes "/base/native/") then some ⟨true, 1000, 1000, 0o775, 4096⟩
    else if p = canonical_bytes (utf8_bytes "/base/native/abc.tar.gz") then
      some ⟨false, 1000, 1000, 0o644, 5000⟩
    else none, []⟩

/-! ## `cleanup_directory`, `cleanup_cache` -/

/-- What the kernel answers during `cleanup_cache`. -/
structure CleanupOracle where
  /-- `access(basedir, R_OK)` fails although `basedir` exists (EACCES, ELOOP, ...) -/
  access_denied : Bool
  /-- `unlink` of that path fails -/
  unlink_err : String → Bool
  /-- `rmdir` of that path, emptied before, fails -/
  rmdir_err : String → Bool
  /-- `mkdir` of an absent `basedir` fails -/
  mkdir_err : Bool
  /-- `chown` of `basedir` fails -/
  chown_err : Bool
  /-- `chmod` of `basedir` fails -/
  chmod_err : Bool
  /-- effective ids and file mode creation mask of the daemon -/
  euid : Nat
  egid : Nat
  umask : Nat

mutual
/-- Lines 127-161, on the file the path `directory` names.  The result is the value
returned and what is left of the file. -/
def cleanup_directory (o : CleanupOracle) (directory : String) : Node → Bool × Node
  | .dir true entries =>
    ((cleanup_directory_loop o directory entries).1,
      .dir true (cleanup_directory_loop o directory entries).2)
  | .dir false entries => (false, .dir false entries)
  | .reg size executable => (false, .reg size executable)
  | .symlink => (false, .symlink)
  | .special => (false, .special)
  | .vanished => (false, .vanished)
/-- The `readdir` loop of `cleanup_directory`: the value returned and the entries left. -/
def cleanup_directory_loop (o : CleanupOracle) (directory : String) :
    Entries → Bool × Entries
  | .nil => (true, .nil)
  | .cons name node rest =>
    if name = "." ∨ name = ".." then
      ((cleanup_directory_loop o directory rest).1,
        .cons name node (cleanup_directory_loop o directory rest).2)
    else
      match node with
      | .vanished => (false, .cons name .vanished rest)
      | .dir openable entries =>
        if (cleanup_directory o (directory ++ "/" ++ name) (.dir openable entries)).1 = false
            ∨ o.rmdir_err (directory ++ "/" ++ name) = true then
          (false, .cons name
            (cleanup_directory o (directory ++ "/" ++ name) (.dir openable entries)).2 rest)
        else cleanup_directory_loop o directory rest
      | .reg size executable =>
        if o.unlink_err (directory ++ "/" ++ name) then
          (false, .cons name (.reg size executable) rest)
        else cleanup_directory_loop o directory rest
      | .symlink =>
        if o.unlink_err (directory ++ "/" ++ name) then (false, .cons name .symlink rest)
        else cleanup_directory_loop o directory rest
      | .special =>
        if o.unlink_err (directory ++ "/" ++ name) then (false, .cons name .special rest)
        else cleanup_directory_loop o directory rest
end

/-- What the path `basedir` names: the file with its owner and mode. -/
structure BaseDir where
  node : Node
  uid : Nat
  gid : Nat
  mode : Nat

/-- Lines 163-188.  `base` is what `basedir` names at the call, `none` when it does not
exist; the result is the value returned and what `basedir` names afterwards. -/
def cleanup_cache (o : CleanupOracle) (basedir : String) (base : Option BaseDir)
    (user_uid user_gid : Nat) : Bool × Option BaseDir :=
  match base with
  | none =>
    if o.mkdir_err then (false, none)
    else if o.chown_err then
      (false, some ⟨.dir true .nil, o.euid, o.egid, 0o755 &&& (0o7777 ^^^ (o.umask &&& 0o7777))⟩)
    else if o.chmod_err then
      (false, some ⟨.dir true .nil, user_uid, user_gid,
        0o755 &&& (0o7777 ^^^ (o.umask &&& 0o7777))⟩)
    else (true, some ⟨.dir true .nil, user_uid, user_gid, 0o775⟩)
  | some b =>
    if o.access_denied = false ∧ (cleanup_directory o basedir b.node).1 = false then
      (false, some { b with node := (cleanup_directory o basedir b.node).2 })
    else
      let node := if o.access_denied then b.node else (cleanup_directory o basedir b.node).2
      if o.chown_err then (false, some { b with node := node })
      else if o.chmod_err then
        (false, some { b with node := node, uid := user_uid, gid := user_gid })
      else (true, some ⟨node, user_uid, user_gid, 0o775⟩)

/-- Whether a directory has no entries other than `.` and `..`. -/
def Entries.only_dots : Entries → Bool
  | .nil => true
  | .cons name _ rest => (name = "." ∨ name = "..") && rest.only_dots

/-- Whether a file is a directory without entries other than `.` and `..`. -/
def Node.is_empty_dir : Node → Bool
  | .dir _ entries => entries.only_dots
  | _ => false

mutual
/-- Whether removing the contents of the directory fails somewhere: it cannot be opened,
or the removal of one of the entries below it fails. -/
def removal_fails (o : CleanupOracle) (directory : String) : Node → Bool
  | .dir true entries => removal_fails_in o directory entries
  | _ => true
/-- Whether the removal of one of these entries of `directory` fails: `lstat`, `unlink`
or `rmdir` fails on it, or the removal of something below it does. -/
def removal_fails_in (o : CleanupOracle) (directory : String) : Entries → Bool
  | .nil => false
  | .cons name node rest =>
    if name = "." ∨ name = ".." then removal_fails_in o directory rest
    else
      (match node with
        | .vanished => true
        | .dir _ _ =>
          removal_fails o (directory ++ "/" ++ name) node || o.rmdir_err (directory ++ "/" ++ name)
        | _ => o.unlink_err (directory ++ "/" ++ name))
      || removal_fails_in o directory rest
end

/-- A machine on which every call succeeds, except that `access` fails when `denied`,
for a daemon with the given effective ids. -/
def cleanup_oracle (denied : Bool) (euid egid : Nat) : CleanupOracle :=
  ⟨denied, fun _ => false, fun _ => false, false, false, false, euid, egid, 0o22⟩

/-- A cache directory holding one environment of target `t` with a file of 100 bytes. -/
def populated_base (uid gid mode : Nat) : BaseDir :=
  ⟨.dir true (.cons "target=t" (.dir true (.cons "env1" (.dir true usr_bin_as) .nil)) .nil),
    uid, gid, mode⟩

/-! ## `remove_environment` -/

/-- What the kernel answers during `remove_environment`. -/
structure RemoveOracle where
  /-- value of `fork()` -/
  fork_pid : Int
  /-- the status the `waitpid` that ends the loop stores; `none` when it fails and
  stores nothing -/
  waitpid_status : Option Nat
  /-- what the directory is once the removal child has run -/
  left_by_child : Node
  /-- `execv` comes back, which it only does on failure -/
  execv_fails : Bool

/-- The macro `WIFEXITED` of `sys/wait.h`: the low seven bits of the status, the
terminating signal, are zero. -/
def WIFEXITED (status : Nat) : Bool := status &&& 0x7f == 0

/-- What `remove_environment` hands back: how it was left, the calls executed after the
accounting, and what `basename/target=<env>` names at that moment. -/
structure RemoveResult where
  outcome : Outcome Nat
  trace : List Event
  dir : Node

/-- Lines 603-643.  `dir` is what `basename/target=<env>` names at the call.
`_exit(-1)` is exit status 255. -/
def remove_environment (o : RemoveOracle) (basename env : String) (dir : Node) :
    RemoveResult :=
  let dirname := basename ++ "/target=" ++ env
  let res := sumup_dir dir
  let t : List Event := [.fork]
  if o.fork_pid = -1 then ⟨.ret 0, t, dir⟩
  else if o.fork_pid ≠ 0 then
    let status : Nat :=
      match o.waitpid_status with
      | some stored => stored
      | none => 0
    if WIFEXITED status then ⟨.ret res, t ++ [.waitpid o.fork_pid], o.left_by_child⟩
    else ⟨.ret 0, t ++ [.waitpid o.fork_pid], o.left_by_child⟩
  else
    let argv := ["/bin/rm", "-rf", "--", dirname]
    if o.execv_fails then ⟨.exit 255, t ++ [.execv argv], dir⟩
    else ⟨.exec argv, t ++ [.execv argv], dir⟩

/-! ## Theorems -/

theorem first_illegal_eq_none (l : List Char) :
    first_illegal l = none ↔ ∀ c ∈ l, legal_char c = true := by
  induction l with
  | nil => simp [first_illegal]
  | cons c cs ih =>
    by_cases h : legal_char c = true
    · simp [first_illegal, h, ih]
    · simp [first_illegal, h]

/-- C1: a name that is empty or has a character that is `/`, whitespace, non-printable
or non-ASCII makes `start_install_environment` return 0 with the machine state as it
was: the filesystem is unchanged and no call at all (no `get_msg`, `mkdir`, `chown`,
`chmod`, `pipe`, `fork`) was executed, whatever the base name, target, channel content
and kernel answers. -/
theorem start_install_environment_rejects_illegal_name
    (TAR : String) (have_libcap_ng : Bool) (o : InstallOracle) (w : World)
    (basename target name : String) (user_uid user_gid : Nat) (extract_priority : Int)
    (h : name = "" ∨ ∃ c ∈ name.data,
      c = '/' ∨ isspace c = true ∨ isprint c = false ∨ isascii c = false) :
    (start_install_environment TAR have_libcap_ng o w basename target name
        user_uid user_gid extract_priority).outcome = .ret 0 ∧
    (start_install_environment TAR have_libcap_ng o w basename target name
        user_uid user_gid extract_priority).world.fs = w.fs ∧
    (start_install_environment TAR have_libcap_ng o w basename target name
        user_uid user_gid extract_priority).world.trace = w.trace ∧
    (start_install_environment TAR have_libcap_ng o w basename target name
        user_uid user_gid extract_priority).pipe_to_stdin = none := by
  unfold start_install_environment
  by_cases h0 : name.length = 0
  · simp [h0]
  · rw [if_neg h0]
    rcases h with h | ⟨c, hc, hbad⟩
    · subst h; simp at h0
    · have hne : first_illegal name.data ≠ none := by
        intro hn
        have hl := (first_illegal_eq_none _).1 hn c hc
        simp only [legal_char, Bool.and_eq_true, Bool.not_eq_true', bne_iff_ne, ne_eq] at hl
        rcases hbad with h1 | h1 | h1 | h1
        · exact hl.1.2 h1
        · simp [hl.1.1.2] at h1
        · simp [hl.2] at h1
        · simp [hl.1.1.1] at h1
      cases hfi : first_illegal name.data with
      | none => exact absurd hfi hne
      | some c0 => simp

theorem start_install_environment_rejects_illegal_name_witness :
    (start_install_environment "/bin/tar" false
        ⟨some (.file_chunk [0x1f, 0x8b, 8]), fun _ => false, fun _ => false, fun _ => false,
          some (3, 4), 77, 0, 0, 0o22, 0, 0, 0, false⟩
        ⟨fun _ => none, []⟩ "/var/cache/icecream" "x86_64" "../etc" 1000 1000 5).outcome = .ret 0 ∧
    (start_install_environment "/bin/tar" false
        ⟨some (.file_chunk [0x1f, 0x8b, 8]), fun _ => false, fun _ => false, fun _ => false,
          some (3, 4), 77, 0, 0, 0o22, 0, 0, 0, false⟩
        ⟨fun _ => none, []⟩ "/var/cache/icecream" "x86_64" "../etc" 1000 1000 5).world.trace = [] :=
  have h := start_install_environment_rejects_illegal_name "/bin/tar" false
    ⟨some (.file_chunk [0x1f, 0x8b, 8]), fun _ => false, fun _ => false, fun _ => false,
      some (3, 4), 77, 0, 0, 0o22, 0, 0, 0, false⟩
    ⟨fun _ => none, []⟩ "/var/cache/icecream" "x86_64" "../etc" 1000 1000 5
    (Or.inr ⟨'/', by decide, Or.inl rfl⟩)
  ⟨h.1, h.2.2.1⟩

/-- C2, as stated, fails: a first chunk made of exactly the two bytes `1F 8B` selects no
flag at all (the sniff requires `len > 2`), and the extractor is started without `-z`. -/
theorem sniff_two_byte_gzip_chunk_selects_nothing :
    sniff_decompressor [0x1F, 0x8B] = none ∧
    magic_table 0x1F 0x8B = some "-z" ∧
    (start_install_environment "/bin/tar" false (calm_oracle (some (.file_chunk [0x1F, 0x8B])) 0)
        empty_world "/base" "x86_64" "abc" 1000 1000 5).outcome
      = .exec ["/bin/tar", "-xC", "/base/target=x86_64/abc"] := by
  refine ⟨by decide, by decide, ?_⟩
  decide

theorem sniff_decompressor_long (b0 b1 b2 : Nat) (rest : List Nat) :
    sniff_decompressor (b0 :: b1 :: b2 :: rest) = magic_table b0 b1 := by
  simp [sniff_decompressor, magic_table]

/-- C2 (amended): the sniff follows the table on the first two bytes for every first
chunk of at least three bytes, and selects no flag for a chunk of at most two bytes;
whenever the extraction child reaches `execv`, its argument vector is the extractor,
`-xC`, the install directory and then exactly the flag so selected (nothing for "none"). -/
theorem start_install_environment_sniff_table
    (TAR : String) (have_libcap_ng : Bool) (o : InstallOracle) (w : World)
    (basename target name : String) (user_uid user_gid : Nat) (extract_priority : Int)
    (buffer : List Nat) (argv : List String)
    (hmsg : o.msg = some (.file_chunk buffer))
    (hexec : (start_install_environment TAR have_libcap_ng o w basename target name
        user_uid user_gid extract_priority).outcome = .exec argv) :
    sniff_decompressor buffer
        = (if 3 ≤ buffer.length then magic_table (buffer.getD 0 0) (buffer.getD 1 0) else none) ∧
    argv = [TAR, "-xC", basename ++ "/target=" ++ target ++ "/" ++ name]
        ++ (sniff_decompressor buffer).toList := by
  constructor
  · match buffer with
    | [] => simp [sniff_decompressor]
    | [_] => simp [sniff_decompressor]
    | [_, _] => simp [sniff_decompressor]
    | b0 :: b1 :: b2 :: rest => simp [sniff_decompressor_long]
  · unfold start_install_environment at hexec
    simp only [hmsg] at hexec
    repeat' split at hexec
    all_goals try (simp at hexec; done)
    unfold install_child at hexec
    simp only at hexec
    repeat' split at hexec
    all_goals first
      | (simp at hexec; done)
      | (simp at hexec; simp [← hexec])

theorem start_install_environment_sniff_table_witness :
    sniff_decompressor [0x28, 0xB5, 0x2F, 0xFD]
        = (if 3 ≤ [0x28, 0xB5, 0x2F, 0xFD].length
            then magic_table ([0x28, 0xB5, 0x2F, 0xFD].getD 0 0) ([0x28, 0xB5, 0x2F, 0xFD].getD 1 0)
            else none) ∧
    ["/bin/tar", "-xC", "/base/target=x86_64/abc", "-Iunzstd"]
        = ["/bin/tar", "-xC", "/base" ++ "/target=" ++ "x86_64" ++ "/" ++ "abc"]
          ++ (sniff_decompressor [0x28, 0xB5, 0x2F, 0xFD]).toList :=
  start_install_environment_sniff_table "/bin/tar" false
    (calm_oracle (some (.file_chunk [0x28, 0xB5, 0x2F, 0xFD])) 0) empty_world
    "/base" "x86_64" "abc" 1000 1000 5 [0x28, 0xB5, 0x2F, 0xFD]
    ["/bin/tar", "-xC", "/base/target=x86_64/abc", "-Iunzstd"] rfl (by decide)

mutual
theorem sumup_dir_eq_sum_mod : ∀ n : Node,
    sumup_dir n = (reachable_file_sizes n).sum % SIZE_MODULUS
  | .dir true entries => by
    have h := sumup_dir_loop_eq_sum_mod entries 0 (by decide)
    simpa [sumup_dir, reachable_file_sizes] using h
  | .dir false _ => by simp [sumup_dir, reachable_file_sizes]
  | .reg _ _ => by simp [sumup_dir, reachable_file_sizes]
  | .symlink => by simp [sumup_dir, reachable_file_sizes]
  | .special => by simp [sumup_dir, reachable_file_sizes]
  | .vanished => by simp [sumup_dir, reachable_file_sizes]
theorem sumup_dir_loop_eq_sum_mod : ∀ (es : Entries) (res : Nat), res < SIZE_MODULUS →
    sumup_dir_loop es res = (res + (reachable_file_sizes_in es).sum) % SIZE_MODULUS
  | .nil, res, hres => by
    simp [sumup_dir_loop, reachable_file_sizes_in, Nat.mod_eq_of_lt hres]
  | .cons name node rest, res, hres => by
    have hpos : 0 < SIZE_MODULUS := by decide
    by_cases hdot : name = "." ∨ name = ".."
    · simp only [sumup_dir_loop, reachable_file_sizes_in, if_pos hdot]
      exact sumup_dir_loop_eq_sum_mod rest res hres
    · simp only [sumup_dir_loop, reachable_file_sizes_in, if_neg hdot]
      cases node with
      | vanished => exact sumup_dir_loop_eq_sum_mod rest res hres
      | symlink => exact sumup_dir_loop_eq_sum_mod rest res hres
      | special => exact sumup_dir_loop_eq_sum_mod rest res hres
      | reg size x =>
        simp only [List.sum_cons]
        rw [sumup_dir_loop_eq_sum_mod rest _ (Nat.mod_lt _ hpos), Nat.mod_add_mod, Nat.add_assoc]
      | dir openable es =>
        simp only [List.sum_append]
        rw [sumup_dir_loop_eq_sum_mod rest _ (Nat.mod_lt _ hpos), Nat.mod_add_mod,
          sumup_dir_eq_sum_mod (.dir openable es), Nat.add_assoc]
        generalize (reachable_file_sizes (Node.dir openable es)).sum = a
        generalize (reachable_file_sizes_in rest).sum = b
        simp only [SIZE_MODULUS]
        omega
end

theorem sumup_dir_loop_cons_dir (name : String) (o : Bool) (es rest : Entries) (res : Nat)
    (h : ¬ (name = "." ∨ name = "..")) :
    sumup_dir_loop (.cons name (.dir o es) rest) res
      = sumup_dir_loop rest ((res + sumup_dir (.dir o es)) % SIZE_MODULUS) := by
  rw [sumup_dir_loop]
  simp only [if_neg h]

/-- C3, as stated, fails: `res` is a `size_t`.  A directory whose only children are two
subdirectories, holding regular files of total size `a = 2 * (2^63 - 1)` and
`b = 2^63 - 1` (the largest `off_t`), has reachable files of total size `a + b`, but
`sumup_dir` yields `2^63 - 3`. -/
theorem sumup_dir_wraps_around :
    (reachable_file_sizes (.dir true (dir_of_files
        [("f", 9223372036854775807), ("g", 9223372036854775807)]))).sum
      = 18446744073709551614 ∧
    (reachable_file_sizes (.dir true (dir_of_files [("h", 9223372036854775807)]))).sum
      = 9223372036854775807 ∧
    (reachable_file_sizes (.dir true
        (.cons "a" (.dir true (dir_of_files
            [("f", 9223372036854775807), ("g", 9223372036854775807)]))
        (.cons "b" (.dir true (dir_of_files [("h", 9223372036854775807)])) .nil)))).sum
      = 18446744073709551614 + 9223372036854775807 ∧
    sumup_dir (.dir true
        (.cons "a" (.dir true (dir_of_files
            [("f", 9223372036854775807), ("g", 9223372036854775807)]))
        (.cons "b" (.dir true (dir_of_files [("h", 9223372036854775807)])) .nil)))
      = 9223372036854775805 := by
  decide

/-- C3 (amended): `sumup_dir` is the sum of the sizes of all regular files reachable
through openable real directories, reduced modulo `2^64` (the arithmetic of `size_t`),
hence that sum itself whenever it is below `2^64`; a symbolic link among the entries
contributes nothing; a directory whose only children are two subdirectories yields the
sum of their two results modulo `2^64`; and a path that cannot be opened yields 0. -/
theorem sumup_dir_is_sum_mod_size (n : Node) :
    sumup_dir n = (reachable_file_sizes n).sum % SIZE_MODULUS ∧
    ((reachable_file_sizes n).sum < SIZE_MODULUS → sumup_dir n = (reachable_file_sizes n).sum) ∧
    (∀ name rest, n = .dir true (.cons name .symlink rest) →
      sumup_dir n = sumup_dir (.dir true rest)) ∧
    (∀ name1 name2 o1 o2 es1 es2,
      n = .dir true (.cons name1 (.dir o1 es1) (.cons name2 (.dir o2 es2) .nil)) →
      ¬ (name1 = "." ∨ name1 = "..") → ¬ (name2 = "." ∨ name2 = "..") →
      sumup_dir n = (sumup_dir (.dir o1 es1) + sumup_dir (.dir o2 es2)) % SIZE_MODULUS) ∧
    ((∀ es, n ≠ .dir true es) → sumup_dir n = 0) := by
  refine ⟨sumup_dir_eq_sum_mod n, ?_, ?_, ?_, ?_⟩
  · intro h
    rw [sumup_dir_eq_sum_mod n, Nat.mod_eq_of_lt h]
  · rintro name rest rfl
    by_cases hdot : name = "." ∨ name = ".."
    · simp [sumup_dir, sumup_dir_loop, hdot]
    · simp [sumup_dir, sumup_dir_loop, hdot]
  · rintro name1 name2 o1 o2 es1 es2 rfl h1 h2
    have e : sumup_dir (.dir true (.cons name1 (.dir o1 es1) (.cons name2 (.dir o2 es2) .nil)))
        = sumup_dir_loop (.cons name1 (.dir o1 es1) (.cons name2 (.dir o2 es2) .nil)) 0 := by
      rw [sumup_dir]
    rw [e, sumup_dir_loop_cons_dir _ _ _ _ _ h1, sumup_dir_loop_cons_dir _ _ _ _ _ h2,
      sumup_dir_loop]
    generalize sumup_dir (.dir o1 es1) = a
    generalize sumup_dir (.dir o2 es2) = b
    simp only [SIZE_MODULUS]
    omega
  · intro h
    cases n with
    | dir openable es =>
      cases openable with
      | true => exact absurd rfl (h es)
      | false => simp [sumup_dir]
    | _ => simp [sumup_dir]

theorem sumup_dir_is_sum_mod_size_witness :
    sumup_dir (.dir true
        (.cons "a" (.dir true (dir_of_files [("f", 10), ("g", 20)]))
        (.cons "b" (.dir true (.cons "h" (.reg 12 true) (.cons "l" .symlink .nil))) .nil)))
      = 42 :=
  ((sumup_dir_is_sum_mod_size _).2.1 (by decide)).trans (by decide)

/-- C4, evaluated: a target directory `target=t` that itself holds an executable
`usr/bin/as` and no environment makes the catalog list the pair `(t, .)`, for the entry
`.` of `readdir`, while no immediate child is a valid environment; a base directory
with an ordinary environment `env1` lists `(t, env1)` alone. -/
theorem available_environmnents_lists_dot_entry :
    available_environmnents (.dir true (.cons "target=t" (.dir true usr_bin_as) .nil))
      = [("t", ".")] ∧
    catalog_of_spec (.dir true (.cons "target=t" (.dir true usr_bin_as) .nil)) = [] ∧
    available_environmnents
        (.dir true (.cons "target=t" (.dir true (.cons "env1" (.dir true usr_bin_as) .nil)) .nil))
      = [("t", "env1")] := by
  decide

theorem foldl_append_flatMap {α β : Type} (g : α → List β) (l : List α) (init : List β) :
    l.foldl (fun acc x => acc ++ g x) init = init ++ l.flatMap g := by
  induction l generalizing init with
  | nil => simp
  | cons x xs ih => simp [ih]

theorem list_target_dirs_eq (current_target : String) (base : Node) (targetdir : Option Node)
    (envs : List (String × String)) :
    list_target_dirs current_target base targetdir envs
      = envs ++ list_target_dirs current_target base targetdir [] := by
  unfold list_target_dirs
  split
  · rename_i entries
    have h : ∀ init : List (String × String),
        (readdir entries).foldl
          (fun envs dirname =>
            if has_usr_bin_as (resolve_entry base (.dir true entries) dirname)
            then envs ++ [(current_target, dirname)] else envs) init
        = init ++ (readdir entries).flatMap (fun dirname =>
            if has_usr_bin_as (resolve_entry base (.dir true entries) dirname)
            then [(current_target, dirname)] else []) := by
      intro init
      rw [← foldl_append_flatMap]
      congr 1
      funext acc x
      split <;> simp
    rw [h envs, h []]
    simp
  · simp

theorem filter_flatMap_pointwise {α β : Type} (G H : α → List β) (q : β → Bool) (P : α → Bool)
    (h : ∀ n, (G n).filter q = if P n then H n else []) (l : List α) :
    (l.flatMap G).filter q = (l.filter P).flatMap H := by
  induction l with
  | nil => simp
  | cons x xs ih =>
    simp only [List.flatMap_cons, List.filter_append, ih, h x, List.filter_cons]
    cases P x <;> simp

theorem list_target_dirs_without_dots (current_target : String) (base : Node)
    (targetdir : Option Node) :
    (list_target_dirs current_target base targetdir []).filter
        (fun p => p.2 ≠ "." ∧ p.2 ≠ "..")
      = (match targetdir with
        | some (.dir true children) => valid_children current_target children
        | _ => []) := by
  unfold list_target_dirs
  split
  · rename_i children
    have hfold : (readdir children).foldl
          (fun envs dirname =>
            if has_usr_bin_as (resolve_entry base (.dir true children) dirname)
            then envs ++ [(current_target, dirname)] else envs) []
        = (readdir children).flatMap (fun dirname =>
            if has_usr_bin_as (resolve_entry base (.dir true children) dirname)
            then [(current_target, dirname)] else []) := by
      have := foldl_append_flatMap (fun dirname =>
            if has_usr_bin_as (resolve_entry base (.dir true children) dirname)
            then [(current_target, dirname)] else []) (readdir children) []
      rw [List.nil_append] at this
      rw [← this]
      congr 1
      funext acc x
      split <;> simp
    rw [hfold]
    have hpoint : ∀ d : String,
        (if has_usr_bin_as (resolve_entry base (.dir true children) d)
          then [(current_target, d)] else []).filter (fun p => p.2 ≠ "." ∧ p.2 ≠ "..")
        = if (decide (d ≠ "." ∧ d ≠ ".." ∧ has_usr_bin_as (children.find d) = true))
          then [(current_target, d)] else [] := by
      intro d
      by_cases h1 : d = "."
      · subst h1; split <;> simp
      by_cases h2 : d = ".."
      · subst h2; split <;> simp
      have hres : resolve_entry base (.dir true children) d = children.find d := by
        simp [resolve_entry, h1, h2, Node.child]
      rw [hres]
      cases has_usr_bin_as (children.find d) <;> simp [h1, h2]
    have hfm := filter_flatMap_pointwise _ (fun d => [(current_target, d)])
      (fun p : String × String => decide (p.2 ≠ "." ∧ p.2 ≠ ".."))
      (fun d => decide (d ≠ "." ∧ d ≠ ".." ∧ has_usr_bin_as (children.find d) = true))
      hpoint
    rw [hfm (readdir children)]
    have hdots : (readdir children).filter
          (fun d => decide (d ≠ "." ∧ d ≠ ".." ∧ has_usr_bin_as (children.find d) = true))
        = children.names.filter
          (fun d => decide (d ≠ "." ∧ d ≠ ".." ∧ has_usr_bin_as (children.find d) = true)) := by
      simp [readdir, List.filter_cons]
    rw [hdots]
    simp [valid_children, List.flatMap_eq_foldl, List.map_eq_flatMap]
  · simp

/-- The catalog the code computes, without the pairs for the `readdir` entries `.` and
`..`, is the catalog of the specification, for every directory tree. -/
theorem available_environmnents_without_dots (base : Node) :
    (available_environmnents base).filter (fun p => p.2 ≠ "." ∧ p.2 ≠ "..")
      = catalog_of_spec base := by
  unfold available_environmnents catalog_of_spec
  split
  · rename_i entries
    have hfold : (readdir entries).foldl
          (fun envs dirname =>
            if dirname.data.head? = some '.' then envs
            else if dirname.data.take 7 = "target=".data then
              list_target_dirs (String.mk (dirname.data.drop 7)) (.dir true entries)
                ((Node.dir true entries).child dirname) envs
            else envs) []
        = (readdir entries).flatMap (fun dirname =>
            if dirname.data.head? = some '.' then []
            else if dirname.data.take 7 = "target=".data then
              list_target_dirs (String.mk (dirname.data.drop 7)) (.dir true entries)
                ((Node.dir true entries).child dirname) []
            else []) := by
      have := foldl_append_flatMap (fun dirname : String =>
            if dirname.data.head? = some '.' then []
            else if dirname.data.take 7 = "target=".data then
              list_target_dirs (String.mk (dirname.data.drop 7)) (.dir true entries)
                ((Node.dir true entries).child dirname) []
            else []) (readdir entries) []
      rw [List.nil_append] at this
      rw [← this]
      congr 1
      funext acc x
      split
      · simp
      · split
        · exact list_target_dirs_eq _ _ _ _
        · simp
    rw [hfold]
    have hpoint : ∀ dirname : String,
        (if dirname.data.head? = some '.' then []
          else if dirname.data.take 7 = "target=".data then
            list_target_dirs (String.mk (dirname.data.drop 7)) (.dir true entries)
              ((Node.dir true entries).child dirname) []
          else []).filter (fun p => decide (p.2 ≠ "." ∧ p.2 ≠ ".."))
        = if (decide (dirname.data.head? ≠ some '.' ∧ dirname.data.take 7 = "target=".data))
          then (match entries.find dirname with
            | some (.dir true children) =>
              valid_children (String.mk (dirname.data.drop 7)) children
            | _ => [])
          else [] := by
      intro dirname
      by_cases h1 : dirname.data.head? = some '.'
      · simp [h1]
      by_cases h2 : dirname.data.take 7 = "target=".data
      · simp only [h1, h2, if_false, if_true, ne_eq, not_false_eq_true, and_self, decide_True]
        exact list_target_dirs_without_dots _ _ _
      · simp [h1, h2]
    rw [filter_flatMap_pointwise _ _ _ _ hpoint]
    congr 1
  · simp

/-- C5: `compilers_uptodate g p c` is false exactly when the current value of at least
one of the three compiler binaries (mtime if it exists, 0 if missing) differs from the
recorded one; with the values `save_compiler_timestamps` writes on the same filesystem
it is true. -/
theorem compilers_uptodate_iff (stat_mtime : String → Option Int) (g p c : Int) :
    (compilers_uptodate stat_mtime g p c = false ↔
      (current_value stat_mtime "/usr/bin/gcc" ≠ g ∨
       current_value stat_mtime "/usr/bin/g++" ≠ p ∨
       current_value stat_mtime "/usr/bin/clang" ≠ c)) ∧
    compilers_uptodate stat_mtime (save_compiler_timestamps stat_mtime).1
      (save_compiler_timestamps stat_mtime).2.1 (save_compiler_timestamps stat_mtime).2.2 = true := by
  constructor
  · unfold compilers_uptodate current_value
    cases stat_mtime "/usr/bin/gcc" <;> cases stat_mtime "/usr/bin/g++" <;>
      cases stat_mtime "/usr/bin/clang" <;> simp <;> tauto
  · unfold compilers_uptodate save_compiler_timestamps
    cases stat_mtime "/usr/bin/gcc" <;> cases stat_mtime "/usr/bin/g++" <;>
      cases stat_mtime "/usr/bin/clang" <;> simp

/-! ### Path names -/

theorem split_on_ne_nil {α : Type} [DecidableEq α] (sep : α) (l : List α) :
    split_on sep l ≠ [] := by
  cases l with
  | nil => simp [split_on]
  | cons c cs =>
    unfold split_on
    split
    · simp
    · split <;> simp

theorem split_on_of_no_sep {α : Type} [DecidableEq α] (sep : α) (l : List α)
    (h : ∀ c ∈ l, c ≠ sep) : split_on sep l = [l] := by
  induction l with
  | nil => simp [split_on]
  | cons c cs ih =>
    have hc : c ≠ sep := h c (by simp)
    have ih' := ih (fun d hd => h d (by simp [hd]))
    simp [split_on, hc, ih']

theorem split_on_append {α : Type} [DecidableEq α] (sep : α) (td name : List α)
    (h : ∀ c ∈ name, c ≠ sep) :
    split_on sep (td ++ sep :: name) = split_on sep td ++ [name] := by
  induction td with
  | nil => simp [split_on, split_on_of_no_sep sep name h]
  | cons c cs ih =>
    by_cases hc : c = sep
    · simp [split_on, hc, ih]
    · have hne := split_on_ne_nil sep cs
      cases hs : split_on sep cs with
      | nil => exact absurd hs hne
      | cons x xs =>
        rw [hs] at ih
        simp [split_on, hc, ih, hs]

theorem canonical_child (td name : String)
    (hslash : ∀ c ∈ name.data, c ≠ '/') (hne : name ≠ "") (hdot : name ≠ ".")
    (hdots : name ≠ "..") :
    canonical (td ++ "/" ++ name) = canonical td ++ "/" ++ name := by
  have hdata : (td ++ "/" ++ name).data = td.data ++ '/' :: name.data := by
    simp [String.data_append]
  have h1 : name.data ≠ [] := fun h => hne (String.ext h)
  have h2 : name.data ≠ ['.'] := fun h => hdot (String.ext h)
  have h3 : name.data ≠ ['.', '.'] := fun h => hdots (String.ext h)
  apply String.ext
  simp only [canonical, resolve_path, hdata, split_on_append '/' td.data name.data hslash,
    List.foldl_append, List.foldl_cons, List.foldl_nil, path_step, h1, h2, h3, or_self,
    if_false, render_path, String.data_append]
  simp

theorem canonical_dot (td : String) : canonical (td ++ "/" ++ ".") = canonical td := by
  have hdata : (td ++ "/" ++ ".").data = td.data ++ '/' :: ['.'] := by
    simp [String.data_append]
  have hslash : ∀ c ∈ ['.'], c ≠ '/' := by decide
  apply String.ext
  simp only [canonical, resolve_path, hdata, split_on_append '/' td.data ['.'] hslash,
    List.foldl_append, List.foldl_cons, List.foldl_nil, path_step, or_true, if_true]

/-! ### `start_install_environment` on an existing directory -/

theorem files_kept_refl (fs : String → Option Inode) : files_kept fs fs :=
  fun _ j h => ⟨j, h, rfl, rfl⟩

theorem files_kept_trans {a b c : String → Option Inode} (h1 : files_kept a b)
    (h2 : files_kept b c) : files_kept a c := by
  intro q j hj
  obtain ⟨k, hk, hd, hs⟩ := h1 q j hj
  obtain ⟨l, hl, hd2, hs2⟩ := h2 q k hk
  exact ⟨l, hl, hd2.trans hd, hs2.trans hs⟩

theorem ne_of_data_isPrefix (tk x q : String) (hx : 0 < x.length)
    (h : (tk ++ x).data <+: q.data) : q ≠ tk := by
  rintro rfl
  have hl := h.length_le
  simp only [String.data_append, List.length_append] at hl
  have h1 : x.data.length = x.length := rfl
  omega

theorem sys_mkdir_effect (o : InstallOracle) (w : World) (path : String) (mode : Nat) :
    (sys_mkdir o w path mode).2.trace = w.trace ++ [.mkdir path mode] ∧
    (∀ q, q ≠ canonical path → (sys_mkdir o w path mode).2.fs q = w.fs q) ∧
    files_kept w.fs (sys_mkdir o w path mode).2.fs ∧
    ((w.fs (canonical path)).isSome = true →
      (sys_mkdir o w path mode).1 ≠ .ok ∧ (sys_mkdir o w path mode).2.fs = w.fs) := by
  unfold sys_mkdir
  simp only [World.log]
  split
  · exact ⟨rfl, fun _ _ => rfl, files_kept_refl _, fun _ => ⟨by simp, rfl⟩⟩
  · split
    · exact ⟨rfl, fun _ _ => rfl, files_kept_refl _, fun _ => ⟨by simp, rfl⟩⟩
    · rename_i hnone
      refine ⟨rfl, fun q hq => by simp [World.put, hq], ?_, fun h => ?_⟩
      · intro q j hj
        have hq : q ≠ canonical path := by
          rintro rfl
          rw [hnone] at hj
          cases hj
        exact ⟨j, by simp [World.put, hq, hj], rfl, rfl⟩
      · rw [hnone] at h
        cases h

theorem sys_chown_effect (o : InstallOracle) (w : World) (path : String) (uid gid : Nat) :
    (sys_chown o w path uid gid).2.trace = w.trace ++ [.chown path uid gid] ∧
    (∀ q, q ≠ canonical path → (sys_chown o w path uid gid).2.fs q = w.fs q) ∧
    files_kept w.fs (sys_chown o w path uid gid).2.fs ∧
    ((sys_chown o w path uid gid).1 = .ok →
      ∃ i, w.fs (canonical path) = some i ∧
        (sys_chown o w path uid gid).2.fs (canonical path)
          = some { i with uid := uid, gid := gid }) := by
  unfold sys_chown
  simp only [World.log]
  split
  · exact ⟨rfl, fun _ _ => rfl, files_kept_refl _, fun h => by cases h⟩
  · rename_i i hsome
    split
    · exact ⟨rfl, fun _ _ => rfl, files_kept_refl _, fun h => by cases h⟩
    · refine ⟨rfl, fun q hq => by simp [World.put, hq], ?_,
        fun _ => ⟨i, hsome, by simp [World.put]⟩⟩
      intro q j hj
      by_cases hq : q = canonical path
      · subst hq
        rw [hsome] at hj
        cases hj
        exact ⟨{ i with uid := uid, gid := gid }, by simp [World.put], rfl, rfl⟩
      · exact ⟨j, by simp [World.put, hq, hj], rfl, rfl⟩

theorem sys_chmod_effect (o : InstallOracle) (w : World) (path : String) (mode : Nat) :
    (sys_chmod o w path mode).2.trace = w.trace ++ [.chmod path mode] ∧
    (∀ q, q ≠ canonical path → (sys_chmod o w path mode).2.fs q = w.fs q) ∧
    files_kept w.fs (sys_chmod o w path mode).2.fs ∧
    ((sys_chmod o w path mode).1 = .ok →
      ∃ i, w.fs (canonical path) = some i ∧
        (sys_chmod o w path mode).2.fs (canonical path) = some { i with mode := mode }) := by
  unfold sys_chmod
  simp only [World.log]
  split
  · exact ⟨rfl, fun _ _ => rfl, files_kept_refl _, fun h => by cases h⟩
  · rename_i i hsome
    split
    · exact ⟨rfl, fun _ _ => rfl, files_kept_refl _, fun h => by cases h⟩
    · refine ⟨rfl, fun q hq => by simp [World.put, hq], ?_,
        fun _ => ⟨i, hsome, by simp [World.put]⟩⟩
      intro q j hj
      by_cases hq : q = canonical path
      · subst hq
        rw [hsome] at hj
        cases hj
        exact ⟨{ i with mode := mode }, by simp [World.put], rfl, rfl⟩
      · exact ⟨j, by simp [World.put, hq, hj], rfl, rfl⟩

theorem install_exclusive_aux (TAR : String) (have_libcap_ng : Bool) (o : InstallOracle) (w : World)
    (basename target name : String) (user_uid user_gid : Nat) (extract_priority : Int)
    (i : Inode)
    (hex : w.fs (canonical (basename ++ "/target=" ++ target ++ "/" ++ name)) = some i)
    (r : InstallResult)
    (hr : start_install_environment TAR have_libcap_ng o w basename target name
        user_uid user_gid extract_priority = r) :
    r.outcome = .ret 0 ∧ r.pipe_to_stdin = none ∧
    (∃ extra, r.world.trace = w.trace ++ extra ∧
      extra <+: [.get_msg 30, .mkdir (basename ++ "/target=" ++ target) 0o770,
        .chown (basename ++ "/target=" ++ target) user_uid user_gid,
        .chmod (basename ++ "/target=" ++ target) 0o770,
        .mkdir (basename ++ "/target=" ++ target ++ "/" ++ name) 0o770]) ∧
    (∀ q, q ≠ canonical (basename ++ "/target=" ++ target) → r.world.fs q = w.fs q) ∧
    files_kept w.fs r.world.fs ∧
    (r.world.trace = w.trace ++ [.get_msg 30, .mkdir (basename ++ "/target=" ++ target) 0o770,
        .chown (basename ++ "/target=" ++ target) user_uid user_gid,
        .chmod (basename ++ "/target=" ++ target) 0o770,
        .mkdir (basename ++ "/target=" ++ target ++ "/" ++ name) 0o770] →
      ∃ k, r.world.fs (canonical (basename ++ "/target=" ++ target)) = some k ∧
        k.uid = user_uid ∧ k.gid = user_gid ∧ k.mode = 0o770) := by
  unfold start_install_environment at hr
  generalize basename ++ "/target=" ++ target = td at *
  have k0 := files_kept_refl w.fs
  split at hr
  · subst hr
    exact ⟨rfl, rfl, ⟨[], by simp, by simp⟩, fun _ _ => rfl, k0, fun h => by simp at h⟩
  split at hr
  · subst hr
    exact ⟨rfl, rfl, ⟨[], by simp, by simp⟩, fun _ _ => rfl, k0, fun h => by simp at h⟩
  split at hr
  · subst hr
    exact ⟨rfl, rfl, ⟨[.get_msg 30], by simp [World.log], by simp⟩, fun _ _ => rfl, k0,
      fun h => by simp [World.log] at h⟩
  · subst hr
    exact ⟨rfl, rfl, ⟨[.get_msg 30], by simp [World.log], by simp⟩, fun _ _ => rfl, k0,
      fun h => by simp [World.log] at h⟩
  dsimp only at hr
  have e1 := sys_mkdir_effect o (w.log (.get_msg 30)) td 0o770
  generalize sys_mkdir o (w.log (.get_msg 30)) td 0o770 = m1 at e1 hr
  obtain ⟨r1, w1⟩ := m1
  simp only [World.log] at e1
  have t1 : w1.trace = w.trace ++ [.get_msg 30, .mkdir td 0o770] := by rw [e1.1]; simp
  have f1 : ∀ q, q ≠ canonical td → w1.fs q = w.fs q := e1.2.1
  have k1 : files_kept w.fs w1.fs := e1.2.2.1
  have e2 := sys_chown_effect o w1 td user_uid user_gid
  have e3 := fun w2 => sys_chmod_effect o w2 td 0o770
  have e4 := fun w3 => sys_mkdir_effect o w3 (td ++ "/" ++ name) 0o770
  rcases r1 with _ | _ | _
  case err =>
    dsimp only at hr; subst hr
    exact ⟨rfl, rfl, ⟨_, t1, by simp⟩, f1, k1, fun h => by rw [t1] at h; simp at h⟩
  all_goals
    dsimp only at hr
    generalize sys_chown o w1 td user_uid user_gid = m2 at e2 hr
    obtain ⟨r2, w2⟩ := m2
    have t2 : w2.trace
        = w.trace ++ [.get_msg 30, .mkdir td 0o770, .chown td user_uid user_gid] := by
      rw [e2.1, t1]; simp
    have f2 : ∀ q, q ≠ canonical td → w2.fs q = w.fs q :=
      fun q hne => (e2.2.1 q hne).trans (f1 q hne)
    have k2 : files_kept w.fs w2.fs := files_kept_trans k1 e2.2.2.1
    rcases r2 with _ | _ | _
    · dsimp only at hr
      specialize e3 w2
      generalize sys_chmod o w2 td 0o770 = m3 at e3 hr
      obtain ⟨r3, w3⟩ := m3
      have t3 : w3.trace = w.trace ++ [.get_msg 30, .mkdir td 0o770,
          .chown td user_uid user_gid, .chmod td 0o770] := by
        rw [e3.1, t2]; simp
      have f3 : ∀ q, q ≠ canonical td → w3.fs q = w.fs q :=
        fun q hne => (e3.2.1 q hne).trans (f2 q hne)
      have k3 : files_kept w.fs w3.fs := files_kept_trans k2 e3.2.2.1
      rcases r3 with _ | _ | _
      · dsimp only at hr
        obtain ⟨i2, _, hw2⟩ := e2.2.2.2 rfl
        obtain ⟨i3, hi3, hw3⟩ := e3.2.2.2 rfl
        have hi : i3 = { i2 with uid := user_uid, gid := user_gid } := by
          rw [hw2] at hi3
          exact (Option.some.inj hi3).symm
        have hsome : (w3.fs (canonical (td ++ "/" ++ name))).isSome = true := by
          by_cases hk : canonical (td ++ "/" ++ name) = canonical td
          · rw [hk, hw3]; rfl
          · rw [f3 _ hk, hex]; rfl
        specialize e4 w3
        have e4b := e4.2.2.2 hsome
        have t4 := e4.1
        generalize sys_mkdir o w3 (td ++ "/" ++ name) 0o770 = m4 at e4b t4 hr
        obtain ⟨r4, w4⟩ := m4
        have t4' : w4.trace = w.trace ++ [.get_msg 30, .mkdir td 0o770,
            .chown td user_uid user_gid, .chmod td 0o770,
            .mkdir (td ++ "/" ++ name) 0o770] := by
          rw [t4, t3]; simp
        have hfs : w4.fs = w3.fs := e4b.2
        have f4 : ∀ q, q ≠ canonical td → w4.fs q = w.fs q := by
          intro q hne
          rw [hfs]; exact f3 q hne
        have k4 : files_kept w.fs w4.fs := by
          rw [hfs]; exact k3
        have own : ∃ k, w4.fs (canonical td) = some k ∧
            k.uid = user_uid ∧ k.gid = user_gid ∧ k.mode = 0o770 := by
          rw [hfs, hw3, hi]
          exact ⟨_, rfl, rfl, rfl, rfl⟩
        rcases r4 with _ | _ | _
        · exact absurd rfl e4b.1
        · dsimp only at hr; subst hr
          exact ⟨rfl, rfl, ⟨_, t4', List.prefix_refl _⟩, f4, k4, fun _ => own⟩
        · dsimp only at hr; subst hr
          exact ⟨rfl, rfl, ⟨_, t4', List.prefix_refl _⟩, f4, k4, fun _ => own⟩
      · dsimp only at hr; subst hr
        exact ⟨rfl, rfl, ⟨_, t3, by simp⟩, f3, k3, fun h => by rw [t3] at h; simp at h⟩
      · dsimp only at hr; subst hr
        exact ⟨rfl, rfl, ⟨_, t3, by simp⟩, f3, k3, fun h => by rw [t3] at h; simp at h⟩
    · dsimp only at hr; subst hr
      exact ⟨rfl, rfl, ⟨_, t2, by simp⟩, f2, k2, fun h => by rw [t2] at h; simp at h⟩
    · dsimp only at hr; subst hr
      exact ⟨rfl, rfl, ⟨_, t2, by simp⟩, f2, k2, fun h => by rw [t2] at h; simp at h⟩

theorem install_tolerates_existing_target (TAR : String) (have_libcap_ng : Bool)
    (o : InstallOracle) (w : World)
    (basename target name : String) (user_uid user_gid : Nat) (extract_priority : Int)
    (j : Inode) (buffer : List Nat) (fds : Nat × Nat)
    (htd : w.fs (canonical (basename ++ "/target=" ++ target)) = some j)
    (hnd : w.fs (canonical (basename ++ "/target=" ++ target ++ "/" ++ name)) = none)
    (hname : name.length ≠ 0) (hlegal : first_illegal name.data = none)
    (hmsg : o.msg = some (.file_chunk buffer))
    (hmk : ∀ p, o.mkdir_err p = false)
    (hown : ∀ p, o.chown_err p = false) (hmod : ∀ p, o.chmod_err p = false)
    (hpipe : o.pipe_fds = some fds) (hfork : 0 < o.fork_pid) :
    (start_install_environment TAR have_libcap_ng o w basename target name
        user_uid user_gid extract_priority).outcome = .ret o.fork_pid := by
  have hne : canonical (basename ++ "/target=" ++ target ++ "/" ++ name)
      ≠ canonical (basename ++ "/target=" ++ target) := by
    intro h
    rw [h, htd] at hnd
    cases hnd
  have h1 : o.fork_pid ≠ -1 := by omega
  have h2 : o.fork_pid ≠ 0 := by omega
  unfold start_install_environment
  simp only [hname, hlegal, hmsg, sys_mkdir, sys_chown, sys_chmod, hmk, hown, hmod, if_false,
    Bool.false_eq_true]
  generalize canonical (basename ++ "/target=" ++ target ++ "/" ++ name) = nk at *
  generalize canonical (basename ++ "/target=" ++ target) = tk at *
  simp [World.log, World.put, htd, hnd, hne, hpipe, h1, h2]

/-- C6, as stated, fails: the name `..` passes the name check, and
`/base/target=t/..` is the existing directory `/base`.  The call returns 0, but on its
way `chown` and `chmod` of the target directory have given the subdirectory
`/base/target=t` of that directory a new owner and mode. -/
theorem install_dot_dot_changes_target_directory :
    "..".length ≠ 0 ∧ first_illegal "..".data = none ∧
    canonical ("/base" ++ "/target=" ++ "t" ++ "/" ++ "..") = "/base" ∧
    target_world.fs "/base" = some ⟨true, 0, 0, 0o755, 4096⟩ ∧
    (start_install_environment "/bin/tar" false (calm_oracle (some (.file_chunk [0x1F, 0x8B, 8])) 77)
        target_world "/base" "t" ".." 1000 1000 5).outcome = .ret 0 ∧
    target_world.fs "/base/target=t" = some ⟨true, 0, 0, 0o755, 4096⟩ ∧
    (start_install_environment "/bin/tar" false (calm_oracle (some (.file_chunk [0x1F, 0x8B, 8])) 77)
        target_world "/base" "t" ".." 1000 1000 5).world.fs "/base/target=t"
      = some ⟨true, 1000, 1000, 0o770, 4096⟩ := by
  decide

/-- C6 (amended): when `basedir/target=<target>/<name>` already exists,
`start_install_environment` returns 0 for every name and target, leaves `pipe_to_stdin`
alone and executes at most `get_msg`, `mkdir`/`chown`/`chmod` of the target directory and
the failing `mkdir` of the name directory (so neither `pipe` nor `fork`); no file is
deleted or replaced, and every file other than the target directory itself is as it was;
the target directory, once all five calls were executed, has the owner and mode of the
install.  For every name other than `.` and `..` everything at or below the existing
directory is as it was, and for every name other than `..` everything below the existing
directory is.  Only the target directory tolerates "already exists": with it present, the
name directory absent and no other failure, the parent returns the pid of the
extractor. -/
theorem start_install_environment_is_exclusive
    (TAR : String) (have_libcap_ng : Bool) (o : InstallOracle) (w : World)
    (basename target name : String) (user_uid user_gid : Nat) (extract_priority : Int)
    (i : Inode)
    (hex : w.fs (canonical (basename ++ "/target=" ++ target ++ "/" ++ name)) = some i) :
    ((start_install_environment TAR have_libcap_ng o w basename target name
        user_uid user_gid extract_priority).outcome = .ret 0 ∧
     (start_install_environment TAR have_libcap_ng o w basename target name
        user_uid user_gid extract_priority).pipe_to_stdin = none ∧
     (∃ extra, (start_install_environment TAR have_libcap_ng o w basename target name
          user_uid user_gid extract_priority).world.trace = w.trace ++ extra ∧
        extra <+: [.get_msg 30, .mkdir (basename ++ "/target=" ++ target) 0o770,
          .chown (basename ++ "/target=" ++ target) user_uid user_gid,
          .chmod (basename ++ "/target=" ++ target) 0o770,
          .mkdir (basename ++ "/target=" ++ target ++ "/" ++ name) 0o770]) ∧
     (∀ q, q ≠ canonical (basename ++ "/target=" ++ target) →
        (start_install_environment TAR have_libcap_ng o w basename target name
          user_uid user_gid extract_priority).world.fs q = w.fs q) ∧
     files_kept w.fs (start_install_environment TAR have_libcap_ng o w basename target name
        user_uid user_gid extract_priority).world.fs ∧
     ((start_install_environment TAR have_libcap_ng o w basename target name
          user_uid user_gid extract_priority).world.trace
        = w.trace ++ [.get_msg 30, .mkdir (basename ++ "/target=" ++ target) 0o770,
          .chown (basename ++ "/target=" ++ target) user_uid user_gid,
          .chmod (basename ++ "/target=" ++ target) 0o770,
          .mkdir (basename ++ "/target=" ++ target ++ "/" ++ name) 0o770] →
      ∃ k, (start_install_environment TAR have_libcap_ng o w basename target name
          user_uid user_gid extract_priority).world.fs
            (canonical (basename ++ "/target=" ++ target)) = some k ∧
        k.uid = user_uid ∧ k.gid = user_gid ∧ k.mode = 0o770)) ∧
    (name ≠ "." → name ≠ ".." →
      ∀ q, (canonical (basename ++ "/target=" ++ target ++ "/" ++ name)).data <+: q.data →
        (start_install_environment TAR have_libcap_ng o w basename target name
          user_uid user_gid extract_priority).world.fs q = w.fs q) ∧
    (name ≠ ".." →
      ∀ q, (canonical (basename ++ "/target=" ++ target ++ "/" ++ name) ++ "/").data
          <+: q.data →
        (start_install_environment TAR have_libcap_ng o w basename target name
          user_uid user_gid extract_priority).world.fs q = w.fs q) ∧
    (∀ (w0 : World) (j : Inode) (buffer : List Nat) (fds : Nat × Nat),
      w0.fs (canonical (basename ++ "/target=" ++ target)) = some j →
      w0.fs (canonical (basename ++ "/target=" ++ target ++ "/" ++ name)) = none →
      name.length ≠ 0 → first_illegal name.data = none →
      o.msg = some (.file_chunk buffer) →
      (∀ p, o.mkdir_err p = false) →
      (∀ p, o.chown_err p = false) → (∀ p, o.chmod_err p = false) →
      o.pipe_fds = some fds → 0 < o.fork_pid →
      (start_install_environment TAR have_libcap_ng o w0 basename target name
        user_uid user_gid extract_priority).outcome = .ret o.fork_pid) := by
  have haux := install_exclusive_aux TAR have_libcap_ng o w basename target name user_uid
    user_gid extract_priority i hex _ rfl
  have hregular : name ≠ "." → name ≠ ".." →
      ∀ q, (canonical (basename ++ "/target=" ++ target ++ "/" ++ name)).data <+: q.data →
        (start_install_environment TAR have_libcap_ng o w basename target name
          user_uid user_gid extract_priority).world.fs q = w.fs q := by
    intro hdot hdots q hpre
    by_cases h0 : name.length = 0
    · simp [start_install_environment, h0]
    cases hfi : first_illegal name.data with
    | some c => simp [start_install_environment, h0, hfi]
    | none =>
      have hlegal := (first_illegal_eq_none _).1 hfi
      have hslash : ∀ c ∈ name.data, c ≠ '/' := by
        intro c hc
        have := hlegal c hc
        simp only [legal_char, Bool.and_eq_true, bne_iff_ne, ne_eq] at this
        exact this.1.2
      have hne : name ≠ "" := by
        rintro rfl
        exact h0 rfl
      rw [canonical_child _ _ hslash hne hdot hdots, String.append_assoc] at hpre
      have hx : 0 < ("/" ++ name).length := by
        have h1 : "/".length = 1 := rfl
        simp only [String.length_append, h1]
        omega
      exact haux.2.2.2.1 q (ne_of_data_isPrefix _ _ _ hx hpre)
  refine ⟨haux, hregular, ?_, ?_⟩
  · intro hdots q hpre
    by_cases hdot : name = "."
    · subst hdot
      rw [canonical_dot] at hpre
      exact haux.2.2.2.1 q (ne_of_data_isPrefix _ _ _ (by decide) hpre)
    · refine hregular hdot hdots q (List.IsPrefix.trans ?_ hpre)
      rw [String.data_append]
      exact List.prefix_append _ _
  · intro w0 j buffer fds htd hnd hname hlegal hmsg hmk hown hmod hpipe hfork
    exact install_tolerates_existing_target TAR have_libcap_ng o w0 basename target name user_uid
      user_gid extract_priority j buffer fds htd hnd hname hlegal hmsg hmk hown hmod hpipe hfork

theorem start_install_environment_is_exclusive_witness :
    (start_install_environment "/bin/tar" false (calm_oracle (some (.file_chunk [0x1F, 0x8B, 8])) 77)
        installed_world "/base" "x86_64" "abc" 1000 1000 5).outcome = .ret 0 ∧
    (start_install_environment "/bin/tar" false (calm_oracle (some (.file_chunk [0x1F, 0x8B, 8])) 77)
        installed_world "/base" "x86_64" "abc" 1000 1000 5).world.fs
          "/base/target=x86_64/abc/usr/bin/as"
      = some ⟨false, 1000, 1000, 0o755, 100⟩ :=
  have h := start_install_environment_is_exclusive "/bin/tar" false
    (calm_oracle (some (.file_chunk [0x1F, 0x8B, 8])) 77) installed_world "/base" "x86_64" "abc"
    1000 1000 5 ⟨true, 1000, 1000, 0o770, 4096⟩ (by decide)
  ⟨h.1.1, (h.2.1 (by decide) (by decide) "/base/target=x86_64/abc/usr/bin/as"
    ⟨"/usr/bin/as".data, by decide⟩).trans (by decide)⟩

theorem jail_calls_error_client (protocol_23 : Bool) (t : List Event) (text : String) :
    jail_calls (error_client protocol_23 t text) = jail_calls t := by
  cases protocol_23 <;> simp [error_client, jail_calls]

theorem chdir_to_environment_on_failure (have_unshare protocol_23 : Bool) (o : JailOracle)
    (dirname : String) (user_uid user_gid : Nat) (s : JailStep)
    (hroot : o.uid = 0) (hs : first_failure o = some s) :
    (chdir_to_environment have_unshare false protocol_23 o dirname user_uid user_gid).1
      = .exit (match s with
        | .chdir => 145 | .chroot => 144 | .setgroups => 143 | .setgid => 143 | .setuid => 142) ∧
    jail_calls (chdir_to_environment have_unshare false protocol_23 o dirname user_uid user_gid).2
      = (jail_sequence dirname user_uid user_gid).take s.position := by
  unfold first_failure at hs
  unfold chdir_to_environment
  simp only [hroot, Bool.false_eq_true, if_false, if_true]
  split at hs
  · cases hs
    simp only [*, if_true, jail_calls_error_client]
    cases have_unshare <;> simp [jail_calls, jail_sequence, JailStep.position]
  rw [if_neg ‹_›]
  split at hs
  · cases hs
    simp only [*, if_true, jail_calls_error_client]
    cases have_unshare <;> simp [jail_calls, jail_sequence, JailStep.position]
  rw [if_neg ‹_›]
  split at hs
  · cases hs
    simp only [*, if_true, jail_calls_error_client]
    cases have_unshare <;> simp [jail_calls, jail_sequence, JailStep.position]
  rw [if_neg ‹_›]
  split at hs
  · cases hs
    simp only [*, if_true, jail_calls_error_client]
    cases have_unshare <;> simp [jail_calls, jail_sequence, JailStep.position]
  rw [if_neg ‹_›]
  split at hs
  · cases hs
    simp only [*, if_true, jail_calls_error_client]
    cases have_unshare <;> simp [jail_calls, jail_sequence, JailStep.position]
  · cases hs

/-- C7: in the build without libcap-ng, `chdir_to_environment` returns to its caller
exactly when the process runs as root and `chdir`, `chroot`, `setgroups`, `setgid` and
`setuid` all succeed, and then these five calls were executed in this order; a process
that is not root terminates (exit code 146) without any jail step; and when a step fails
the process terminates with the steps up to and including the first failing one executed
and none after it. -/
theorem chdir_to_environment_never_continues (have_unshare protocol_23 : Bool) (o : JailOracle)
    (dirname : String) (user_uid user_gid : Nat) :
    ((chdir_to_environment have_unshare false protocol_23 o dirname user_uid user_gid).1 = .ret ()
      ↔ (o.uid = 0 ∧ 0 ≤ o.chdir_ret ∧ 0 ≤ o.chroot_ret ∧ 0 ≤ o.setgroups_ret ∧
          0 ≤ o.setgid_ret ∧ 0 ≤ o.setuid_ret)) ∧
    ((chdir_to_environment have_unshare false protocol_23 o dirname user_uid user_gid).1 = .ret ()
      → jail_calls (chdir_to_environment have_unshare false protocol_23 o dirname
          user_uid user_gid).2 = jail_sequence dirname user_uid user_gid) ∧
    (o.uid ≠ 0 →
      (chdir_to_environment have_unshare false protocol_23 o dirname user_uid user_gid).1
        = .exit 146 ∧
      jail_calls (chdir_to_environment have_unshare false protocol_23 o dirname
          user_uid user_gid).2 = []) ∧
    (∀ s, o.uid = 0 → first_failure o = some s →
      (∃ code, (chdir_to_environment have_unshare false protocol_23 o dirname
          user_uid user_gid).1 = .exit code) ∧
      jail_calls (chdir_to_environment have_unshare false protocol_23 o dirname
          user_uid user_gid).2 = (jail_sequence dirname user_uid user_gid).take s.position) := by
  have hfail := chdir_to_environment_on_failure have_unshare protocol_23 o dirname user_uid user_gid
  have hnot : o.uid ≠ 0 →
      (chdir_to_environment have_unshare false protocol_23 o dirname user_uid user_gid).1
        = .exit 146 ∧
      jail_calls (chdir_to_environment have_unshare false protocol_23 o dirname
          user_uid user_gid).2 = [] := by
    intro h
    unfold chdir_to_environment
    simp only [h, Bool.false_eq_true, if_false, jail_calls_error_client]
    cases have_unshare <;> simp [jail_calls]
  have hok : o.uid = 0 → first_failure o = none →
      (chdir_to_environment have_unshare false protocol_23 o dirname user_uid user_gid)
        = (.ret (), (if have_unshare then [.unshare] else []) ++
            jail_sequence dirname user_uid user_gid) := by
    intro h hn
    unfold first_failure at hn
    unfold chdir_to_environment
    repeat' split at hn
    all_goals first
      | (cases hn; done)
      | simp [*, jail_sequence]
  refine ⟨?_, ?_, hnot, fun s h hs => ⟨⟨_, (hfail s h hs).1⟩, (hfail s h hs).2⟩⟩
  · constructor
    · intro hret
      by_cases h : o.uid = 0
      · cases hs : first_failure o with
        | some s => rw [(hfail s h hs).1] at hret; cases hret
        | none =>
          unfold first_failure at hs
          repeat' split at hs
          all_goals first
            | (cases hs; done)
            | exact ⟨h, by omega, by omega, by omega, by omega, by omega⟩
      · rw [(hnot h).1] at hret; cases hret
    · rintro ⟨h, h1, h2, h3, h4, h5⟩
      rw [hok h (by simp [first_failure, not_lt.mpr h1, not_lt.mpr h2, not_lt.mpr h3,
        not_lt.mpr h4, not_lt.mpr h5])]
  · intro hret
    by_cases h : o.uid = 0
    · cases hs : first_failure o with
      | some s => rw [(hfail s h hs).1] at hret; cases hret
      | none =>
        rw [hok h hs]
        cases have_unshare <;> simp [jail_calls, jail_sequence]
    · rw [(hnot h).1] at hret; cases hret

/-- C8, as stated, fails: a failing `setgroups` and a failing `setgid` terminate the
process with the same exit code, 143. -/
theorem setgroups_and_setgid_share_exit_code :
    (chdir_to_environment true false true (failing_at .setgroups) "/base/target=t/env" 1000 1000).1
      = .exit 143 ∧
    (chdir_to_environment true false true (failing_at .setgid) "/base/target=t/env" 1000 1000).1
      = .exit 143 ∧
    first_failure (failing_at .setgroups) = some .setgroups ∧
    first_failure (failing_at .setgid) = some .setgid := by
  decide

/-- C8 (amended): a run of `chdir_to_environment` as root whose first failing step is
`chdir` ends with exit code 145, `chroot` with 144, `setgroups` with 143, `setgid` with
143 and `setuid` with 142; these codes are pairwise different except that `setgroups`
and `setgid` share 143: two failing runs end with the same exit code exactly when they
fail at the same step or one fails at `setgroups` and the other at `setgid`. -/
theorem jail_exit_code_identifies_step (have_unshare protocol_23 : Bool) (o1 o2 : JailOracle)
    (dirname : String) (user_uid user_gid : Nat) (s1 s2 : JailStep)
    (h1 : o1.uid = 0) (h2 : o2.uid = 0)
    (hs1 : first_failure o1 = some s1) (hs2 : first_failure o2 = some s2) :
    (chdir_to_environment have_unshare false protocol_23 o1 dirname user_uid user_gid).1
      = .exit (match s1 with
        | .chdir => 145 | .chroot => 144 | .setgroups => 143 | .setgid => 143 | .setuid => 142) ∧
    (chdir_to_environment have_unshare false protocol_23 o2 dirname user_uid user_gid).1
      = .exit (match s2 with
        | .chdir => 145 | .chroot => 144 | .setgroups => 143 | .setgid => 143 | .setuid => 142) ∧
    ((chdir_to_environment have_unshare false protocol_23 o1 dirname user_uid user_gid).1
        = (chdir_to_environment have_unshare false protocol_23 o2 dirname user_uid user_gid).1
      ↔ (s1 = s2 ∨ (s1 = .setgroups ∧ s2 = .setgid) ∨ (s1 = .setgid ∧ s2 = .setgroups))) := by
  have e1 := (chdir_to_environment_on_failure have_unshare protocol_23 o1 dirname user_uid
    user_gid s1 h1 hs1).1
  have e2 := (chdir_to_environment_on_failure have_unshare protocol_23 o2 dirname user_uid
    user_gid s2 h2 hs2).1
  refine ⟨e1, e2, ?_⟩
  rw [e1, e2]
  cases s1 <;> cases s2 <;> simp

theorem jail_exit_code_identifies_step_witness :
    (chdir_to_environment true false true (failing_at .chroot) "/base/target=t/env" 1000 1000).1
      = .exit 144 ∧
    (chdir_to_environment true false true (failing_at .setuid) "/base/target=t/env" 1000 1000).1
      = .exit 142 ∧
    ((chdir_to_environment true false true (failing_at .chroot) "/base/target=t/env" 1000 1000).1
        = (chdir_to_environment true false true (failing_at .setuid) "/base/target=t/env"
            1000 1000).1
      ↔ (JailStep.chroot = JailStep.setuid ∨
          (JailStep.chroot = JailStep.setgroups ∧ JailStep.setuid = JailStep.setgid) ∨
          (JailStep.chroot = JailStep.setgid ∧ JailStep.setuid = JailStep.setgroups))) :=
  jail_exit_code_identifies_step true true (failing_at .chroot) (failing_at .setuid)
    "/base/target=t/env" 1000 1000 .chroot .setuid rfl rfl (by decide) (by decide)

/-- C9, evaluated: for every non-empty target and name whose directory holds an
executable `bin/true`, a failing `fork` (value -1) makes `verify_env` abort the calling
process in a build with assertions (`assert(pid >= 0)`), with no call after `fork`;
only with `NDEBUG` defined does it return false. -/
theorem verify_env_fork_failure (ndebug have_unshare have_libcap_ng protocol_23 : Bool)
    (shell_exit_status : Int → Int) (o : VerifyOracle)
    (basedir target env : String) (user_uid user_gid : Nat)
    (htarget : target ≠ "") (henv : env ≠ "")
    (haccess : 0 ≤ o.access_ret) (hfork : o.fork_pid = -1) :
    verify_env ndebug have_unshare have_libcap_ng protocol_23 shell_exit_status o
        basedir target env user_uid user_gid
      = (if ndebug then .ret false else .abort,
          [.access (basedir ++ "/target=" ++ target ++ "/" ++ env ++ "/bin/true"), .fork]) := by
  have h : ¬ (0 ≤ o.fork_pid) := by omega
  have h1 : ¬ (0 < o.fork_pid) := by omega
  have h2 : o.fork_pid < 0 := by omega
  cases ndebug <;>
    simp [verify_env, htarget, henv, not_lt.mpr haccess, h, h1, h2]

theorem verify_env_fork_failure_witness :
    verify_env false true false true (fun status => status)
        ⟨0, -1, 0, ⟨0, 0, 0, 0, 0, 0⟩, false⟩ "/base" "t" "env1" 1000 1000
      = (.abort, [.access "/base/target=t/env1/bin/true", .fork]) :=
  (verify_env_fork_failure false true false true (fun status => status)
    ⟨0, -1, 0, ⟨0, 0, 0, 0, 0, 0⟩, false⟩ "/base" "t" "env1" 1000 1000
    (by decide) (by decide) (by decide) rfl).trans (by decide)

theorem c_line_of_line (f rest : List Nat) (hf : ∀ c ∈ f, c ≠ NUL ∧ c ≠ NEWLINE) :
    c_line (f ++ NEWLINE :: rest) = some f := by
  induction f with
  | nil => simp [c_line]
  | cons c cs ih =>
    have hc := hf c (by simp)
    have ih' := ih (fun d hd => hf d (by simp [hd]))
    simp [c_line, hc.1, hc.2, ih']

theorem utf8_bytes_append (a b : String) : utf8_bytes (a ++ b) = utf8_bytes a ++ utf8_bytes b := by
  simp [utf8_bytes, String.data_append, List.flatMap_append]

theorem native_path_ne_nil (basedir : String) (rest : List Nat) :
    utf8_bytes (basedir ++ "/native/") ++ rest ≠ [] := by
  have h : utf8_bytes "/native/" = [47, 110, 97, 116, 105, 118, 101, 47] := by decide
  rw [utf8_bytes_append, h]
  simp

/-- C10, evaluated: after a helper that wrote nothing (the read delivers zero bytes), in
the state `start_create_env` leaves, with the native directory present,
`finish_create_env` sets the path to `basedir + "/native/"`, which is never empty,
returns the `st_size` of that directory and does not call `rmdir`: the test
`!native_environment.empty()` can never fail.  After a helper that wrote a file name and
a newline, with that file present under `basedir/native/`, it returns the size of the
file and sets the path to `basedir + "/native/" + filename`. -/
theorem finish_create_env_empty_output (o : FinishOracle) (w : FinishWorld) (pipe : Nat)
    (basedir : String) :
    (∀ st : Inode, o.read_ret = some [] →
      w.fs (canonical_bytes (utf8_bytes (basedir ++ "/native/"))) = some st →
      ∃ r, finish_create_env o w pipe basedir = some r ∧
        r.ret = st.size ∧
        r.native_environment = utf8_bytes (basedir ++ "/native/") ∧
        r.native_environment ≠ [] ∧
        r.world.fs = w.fs ∧
        r.world.trace = w.trace ++ [.read pipe 1023, .close pipe,
          .stat (utf8_bytes (basedir ++ "/native/"))]) ∧
    (∀ (filename : String) (st : Inode),
      o.read_ret = some (utf8_bytes filename ++ [NEWLINE]) →
      (∀ c ∈ utf8_bytes filename, c ≠ NUL ∧ c ≠ NEWLINE) →
      (utf8_bytes filename).length ≤ 1022 →
      w.fs (canonical_bytes (utf8_bytes (basedir ++ "/native/" ++ filename))) = some st →
      ∃ r, finish_create_env o w pipe basedir = some r ∧
        r.ret = st.size ∧
        r.native_environment = utf8_bytes (basedir ++ "/native/" ++ filename) ∧
        r.world.fs = w.fs) := by
  constructor
  · intro st hread hfs
    have hne := native_path_ne_nil basedir []
    rw [List.append_nil] at hne
    unfold finish_create_env
    simp only [hread, List.take_nil, List.length_nil, List.drop_zero, List.nil_append, c_line,
      true_or, if_true, List.append_nil, if_neg hne, FinishWorld.log, hfs]
    exact ⟨_, rfl, rfl, rfl, hne, rfl, by simp⟩
  · intro filename st hread hchars hlen hfs
    have hne := native_path_ne_nil basedir (utf8_bytes filename)
    have hlen' : (utf8_bytes filename ++ [NEWLINE]).length ≤ 1023 := by
      simp only [List.length_append, List.length_singleton]
      omega
    have hline : ∀ rest, c_line (utf8_bytes filename ++ [NEWLINE] ++ rest)
        = some (utf8_bytes filename) := by
      intro rest
      have := c_line_of_line (utf8_bytes filename) rest hchars
      simpa using this
    have hpath : utf8_bytes (basedir ++ "/native/" ++ filename)
        = utf8_bytes (basedir ++ "/native/") ++ utf8_bytes filename := utf8_bytes_append _ _
    rw [hpath] at hfs ⊢
    unfold finish_create_env
    simp only [hread, List.take_of_length_le hlen', hline, if_neg hne, FinishWorld.log, hfs]
    exact ⟨_, rfl, rfl, rfl, rfl⟩

theorem finish_create_env_empty_output_witness :
    (∃ r, finish_create_env ⟨some [], [], false⟩ native_dir_world 7 "/base" = some r ∧
      r.ret = 4096 ∧
      r.native_environment = utf8_bytes ("/base" ++ "/native/") ∧
      r.native_environment ≠ [] ∧
      r.world.fs = native_dir_world.fs ∧
      r.world.trace = native_dir_world.trace ++ [.read 7 1023, .close 7,
        .stat (utf8_bytes ("/base" ++ "/native/"))]) ∧
    (∃ r, finish_create_env ⟨some (utf8_bytes "abc.tar.gz" ++ [NEWLINE]), [], false⟩
        native_archive_world 7 "/base" = some r ∧
      r.ret = 5000 ∧
      r.native_environment = utf8_bytes ("/base" ++ "/native/" ++ "abc.tar.gz") ∧
      r.world.fs = native_archive_world.fs) :=
  ⟨(finish_create_env_empty_output ⟨some [], [], false⟩ native_dir_world 7 "/base").1
      ⟨true, 1000, 1000, 0o775, 4096⟩ rfl (by decide),
    (finish_create_env_empty_output ⟨some (utf8_bytes "abc.tar.gz" ++ [NEWLINE]), [], false⟩
      native_archive_world 7 "/base").2 "abc.tar.gz" ⟨false, 1000, 1000, 0o644, 5000⟩
      rfl (by decide) (by decide) (by decide)⟩

theorem cleanup_directory_spec (o : CleanupOracle) :
    (∀ (n : Node) (directory : String),
      (cleanup_directory o directory n).1 = !removal_fails o directory n) ∧
    (∀ (es : Entries) (directory : String),
      (cleanup_directory_loop o directory es).1 = !removal_fails_in o directory es ∧
      ((cleanup_directory_loop o directory es).1 = true →
        (cleanup_directory_loop o directory es).2.only_dots = true)) := by
  have h_reg : ∀ (size : Nat) (x : Bool) (directory : String),
      (cleanup_directory o directory (.reg size x)).1 = !removal_fails o directory (.reg size x) := by
    intros; simp [cleanup_directory, removal_fails]
  have h_dir : ∀ (openable : Bool) (es : Entries),
      (∀ directory : String,
        (cleanup_directory_loop o directory es).1 = !removal_fails_in o directory es ∧
        ((cleanup_directory_loop o directory es).1 = true →
          (cleanup_directory_loop o directory es).2.only_dots = true)) →
      ∀ directory : String, (cleanup_directory o directory (.dir openable es)).1
        = !removal_fails o directory (.dir openable es) := by
    intro openable es ih directory
    cases openable
    · simp [cleanup_directory, removal_fails]
    · simp only [cleanup_directory, removal_fails]
      exact (ih directory).1
  have h_sym : ∀ directory : String,
      (cleanup_directory o directory .symlink).1 = !removal_fails o directory .symlink := by
    intros; simp [cleanup_directory, removal_fails]
  have h_spe : ∀ directory : String,
      (cleanup_directory o directory .special).1 = !removal_fails o directory .special := by
    intros; simp [cleanup_directory, removal_fails]
  have h_van : ∀ directory : String,
      (cleanup_directory o directory .vanished).1 = !removal_fails o directory .vanished := by
    intros; simp [cleanup_directory, removal_fails]
  have h_nil : ∀ directory : String,
      (cleanup_directory_loop o directory .nil).1 = !removal_fails_in o directory .nil ∧
      ((cleanup_directory_loop o directory .nil).1 = true →
        (cleanup_directory_loop o directory .nil).2.only_dots = true) := by
    intros; simp [cleanup_directory_loop, removal_fails_in, Entries.only_dots]
  have h_cons : ∀ (name : String) (node : Node) (rest : Entries),
      (∀ directory : String,
        (cleanup_directory o directory node).1 = !removal_fails o directory node) →
      (∀ directory : String,
        (cleanup_directory_loop o directory rest).1 = !removal_fails_in o directory rest ∧
        ((cleanup_directory_loop o directory rest).1 = true →
          (cleanup_directory_loop o directory rest).2.only_dots = true)) →
      ∀ directory : String,
        (cleanup_directory_loop o directory (.cons name node rest)).1
          = !removal_fails_in o directory (.cons name node rest) ∧
        ((cleanup_directory_loop o directory (.cons name node rest)).1 = true →
          (cleanup_directory_loop o directory (.cons name node rest)).2.only_dots = true) := by
    intro name node rest ihn ihr directory
    have ih1 := (ihr directory).1
    have ih2 := (ihr directory).2
    by_cases hdot : name = "." ∨ name = ".."
    · have e1 : cleanup_directory_loop o directory (.cons name node rest)
          = ((cleanup_directory_loop o directory rest).1,
              .cons name node (cleanup_directory_loop o directory rest).2) := by
        cases node <;> simp [cleanup_directory_loop, hdot]
      have e2 : removal_fails_in o directory (.cons name node rest)
          = removal_fails_in o directory rest := by
        cases node <;> simp [removal_fails_in, hdot]
      rw [e1, e2]
      refine ⟨ih1, fun h => ?_⟩
      simp [Entries.only_dots, hdot, ih2 h]
    · cases node with
      | vanished => simp [cleanup_directory_loop, removal_fails_in, hdot]
      | dir openable entries =>
        have ihd := ihn (directory ++ "/" ++ name)
        simp only [cleanup_directory_loop, removal_fails_in, if_neg hdot]
        rw [ihd]
        cases removal_fails o (directory ++ "/" ++ name) (.dir openable entries) <;>
          cases o.rmdir_err (directory ++ "/" ++ name) <;>
          first | (simp; done) | simpa using ⟨ih1, ih2⟩
      | reg size executable =>
        simp only [cleanup_directory_loop, removal_fails_in, if_neg hdot]
        cases o.unlink_err (directory ++ "/" ++ name) <;>
          first | (simp; done) | simpa using ⟨ih1, ih2⟩
      | symlink =>
        simp only [cleanup_directory_loop, removal_fails_in, if_neg hdot]
        cases o.unlink_err (directory ++ "/" ++ name) <;>
          first | (simp; done) | simpa using ⟨ih1, ih2⟩
      | special =>
        simp only [cleanup_directory_loop, removal_fails_in, if_neg hdot]
        cases o.unlink_err (directory ++ "/" ++ name) <;>
          first | (simp; done) | simpa using ⟨ih1, ih2⟩
  exact ⟨fun n => @Node.rec
      (fun n => ∀ directory : String,
        (cleanup_directory o directory n).1 = !removal_fails o directory n)
      (fun es => ∀ directory : String,
        (cleanup_directory_loop o directory es).1 = !removal_fails_in o directory es ∧
        ((cleanup_directory_loop o directory es).1 = true →
          (cleanup_directory_loop o directory es).2.only_dots = true))
      h_reg h_dir h_sym h_spe h_van h_nil h_cons n,
    fun es => @Entries.rec
      (fun n => ∀ directory : String,
        (cleanup_directory o directory n).1 = !removal_fails o directory n)
      (fun es => ∀ directory : String,
        (cleanup_directory_loop o directory es).1 = !removal_fails_in o directory es ∧
        ((cleanup_directory_loop o directory es).1 = true →
          (cleanup_directory_loop o directory es).2.only_dots = true))
      h_reg h_dir h_sym h_spe h_van h_nil h_cons es⟩

theorem cleanup_directory_leaves_empty (o : CleanupOracle) (directory : String) (n : Node)
    (h : (cleanup_directory o directory n).1 = true) :
    (cleanup_directory o directory n).2.is_empty_dir = true := by
  cases n with
  | dir openable es =>
    cases openable
    · simp [cleanup_directory] at h
    · simp only [cleanup_directory] at h ⊢
      exact ((cleanup_directory_spec o).2 es directory).2 h
  | _ => simp [cleanup_directory] at h

/-- C11, as stated, fails: a cache directory that exists but on which `access(.., R_OK)`
fails (mode 0300, say, for a daemon that is not root) is not cleaned; `mkdir` answers
EEXIST, `chown` and `chmod` succeed, and `cleanup_cache` returns true with the directory
still holding its environment. -/
theorem cleanup_cache_skips_unreadable_base :
    (cleanup_cache (cleanup_oracle true 1000 1000) "/base" (some (populated_base 1000 1000 0o300))
        1000 1000).1 = true ∧
    (cleanup_cache (cleanup_oracle true 1000 1000) "/base" (some (populated_base 1000 1000 0o300))
        1000 1000).2.map (fun b => (b.node.is_empty_dir, b.uid, b.gid, b.mode))
      = some (false, 1000, 1000, 0o775) := by
  decide

/-- C11 (amended): if `cleanup_cache(basedir, uid, gid)` returns true then afterwards
`basedir` exists, is owned by `uid:gid` and has mode 0775, and it is empty (no entries
other than `.` and `..`) provided that it did not exist at the call or that
`access(basedir, R_OK)` succeeded; an existing `basedir` on which `access` fails is not
cleaned and keeps its contents, whatever is returned; and if `basedir` exists, is
accessible and removing some entry below it fails, `cleanup_cache` returns false. -/
theorem cleanup_cache_postcondition (o : CleanupOracle) (basedir : String)
    (base : Option BaseDir) (user_uid user_gid : Nat) :
    ((cleanup_cache o basedir base user_uid user_gid).1 = true →
      ∃ b, (cleanup_cache o basedir base user_uid user_gid).2 = some b ∧
        b.uid = user_uid ∧ b.gid = user_gid ∧ b.mode = 0o775 ∧
        ((base = none ∨ o.access_denied = false) → b.node.is_empty_dir = true)) ∧
    (∀ b0, base = some b0 → o.access_denied = true →
      ∃ b, (cleanup_cache o basedir base user_uid user_gid).2 = some b ∧ b.node = b0.node) ∧
    (∀ b0, base = some b0 → o.access_denied = false →
      removal_fails o basedir b0.node = true →
      (cleanup_cache o basedir base user_uid user_gid).1 = false) := by
  refine ⟨?_, ?_, ?_⟩
  · intro h
    cases base with
    | none =>
      unfold cleanup_cache at h ⊢
      simp only at h ⊢
      split at h
      · cases h
      split at h
      · cases h
      split at h
      · cases h
      rename_i h1 h2 h3
      simp only [h1, h2, h3, if_false]
      exact ⟨_, rfl, rfl, rfl, rfl, fun _ => by simp [Node.is_empty_dir, Entries.only_dots]⟩
    | some b0 =>
      unfold cleanup_cache at h ⊢
      simp only at h ⊢
      split at h
      · cases h
      rename_i h1
      split at h
      · cases h
      split at h
      · cases h
      rename_i h2 h3
      simp only [h1, h2, h3, if_false]
      refine ⟨_, rfl, rfl, rfl, rfl, fun hacc => ?_⟩
      rcases hacc with hacc | hacc
      · cases hacc
      · have hclean : (cleanup_directory o basedir b0.node).1 = true := by
          by_contra hc
          exact h1 ⟨hacc, by simpa using hc⟩
        simp only [hacc, Bool.false_eq_true, if_false]
        exact cleanup_directory_leaves_empty o basedir b0.node hclean
  · intro b0 hb hacc
    subst hb
    unfold cleanup_cache
    simp only [hacc, Bool.true_eq_false, false_and, if_false, if_true]
    split
    · exact ⟨_, rfl, rfl⟩
    · split
      · exact ⟨_, rfl, rfl⟩
      · exact ⟨_, rfl, rfl⟩
  · intro b0 hb hacc hfail
    subst hb
    have hcd := (cleanup_directory_spec o).1 b0.node basedir
    rw [hfail] at hcd
    unfold cleanup_cache
    simp [hacc, hcd]

theorem cleanup_cache_postcondition_witness :
    ∃ b, (cleanup_cache (cleanup_oracle false 0 0) "/base" (some (populated_base 0 0 0o755))
        1000 1000).2 = some b ∧
      b.uid = 1000 ∧ b.gid = 1000 ∧ b.mode = 0o775 ∧ b.node.is_empty_dir = true :=
  let ⟨b, h1, h2, h3, h4, h5⟩ := (cleanup_cache_postcondition (cleanup_oracle false 0 0) "/base"
    (some (populated_base 0 0 0o755)) 1000 1000).1 (by decide)
  ⟨b, h1, h2, h3, h4, h5 (Or.inr rfl)⟩

theorem WIFEXITED_of_exit_code (code : Nat) : WIFEXITED (code * 256) = true := by
  have h := Nat.and_pow_two_sub_one_eq_mod (code * 256) 7
  have h2 : (2 : Nat) ^ 7 - 1 = 0x7f := by decide
  rw [h2] at h
  have h3 : code * 256 % 2 ^ 7 = 0 := by omega
  rw [h3] at h
  unfold WIFEXITED
  rw [h]
  rfl

/-- C12: `remove_environment` computes `sumup_dir` of `basename/target=<env>` as it is at
the call, before `fork`; it returns 0 when `fork` fails; in the parent it returns that
size when the status of the child says it exited (`WIFEXITED`), which every exit code
does, also a non-zero one, whatever the child left of the directory, and 0 when the
status says it did not exit normally (when `waitpid` itself fails, the status keeps its
initial value 0 and the size is returned); the child executes
`/bin/rm -rf -- basename/target=<env>`. -/
theorem remove_environment_result (o : RemoveOracle) (basename env : String) (dir : Node) :
    (o.fork_pid = -1 →
      (remove_environment o basename env dir).outcome = .ret 0 ∧
      (remove_environment o basename env dir).trace = [.fork]) ∧
    (∀ status, o.fork_pid ≠ -1 → o.fork_pid ≠ 0 → o.waitpid_status = some status →
      (WIFEXITED status = true →
        (remove_environment o basename env dir).outcome = .ret (sumup_dir dir)) ∧
      (WIFEXITED status = false →
        (remove_environment o basename env dir).outcome = .ret 0) ∧
      (remove_environment o basename env dir).trace = [.fork, .waitpid o.fork_pid] ∧
      (remove_environment o basename env dir).dir = o.left_by_child) ∧
    (∀ code, o.fork_pid ≠ -1 → o.fork_pid ≠ 0 → o.waitpid_status = some (code * 256) →
      (remove_environment o basename env dir).outcome = .ret (sumup_dir dir)) ∧
    (o.fork_pid ≠ -1 → o.fork_pid ≠ 0 → o.waitpid_status = none →
      (remove_environment o basename env dir).outcome = .ret (sumup_dir dir)) ∧
    (o.fork_pid = 0 → o.execv_fails = false →
      (remove_environment o basename env dir).outcome
        = .exec ["/bin/rm", "-rf", "--", basename ++ "/target=" ++ env] ∧
      (remove_environment o basename env dir).trace
        = [.fork, .execv ["/bin/rm", "-rf", "--", basename ++ "/target=" ++ env]]) := by
  refine ⟨?_, ?_, ?_, ?_, ?_⟩
  · intro h
    simp [remove_environment, h]
  · intro status h1 h2 hs
    refine ⟨fun hw => ?_, fun hw => ?_, ?_, ?_⟩
    · simp [remove_environment, h1, h2, hs, hw]
    · simp [remove_environment, h1, h2, hs, hw]
    · cases hw : WIFEXITED status <;> simp [remove_environment, h1, h2, hs, hw]
    · cases hw : WIFEXITED status <;> simp [remove_environment, h1, h2, hs, hw]
  · intro code h1 h2 hs
    simp [remove_environment, h1, h2, hs, WIFEXITED_of_exit_code]
  · intro h1 h2 hs
    have h0 : WIFEXITED 0 = true := by decide
    simp [remove_environment, h1, h2, hs, h0]
  · intro h hx
    have h1 : o.fork_pid ≠ -1 := by omega
    simp [remove_environment, h, hx]

theorem remove_environment_result_witness :
    (remove_environment ⟨4711, some (1 * 256), .vanished, false⟩ "/base" "t"
        (populated_base 1000 1000 0o775).node).outcome = .ret 100 :=
  ((remove_environment_result ⟨4711, some (1 * 256), .vanished, false⟩ "/base" "t"
    (populated_base 1000 1000 0o775).node).2.2.1 1 (by decide) (by decide) rfl).trans
    (by decide)

end Icecream
